import Mathlib

/-!
Shallow embedding of the tickticktoe game simulator (src/server.rs, with the
identical simulation logic repeated in src/client.rs and src/main.rs), and of
the lobby / connection handling of src/server.rs.

Machine-integer conventions:
* `usize` values (grid indices, sizes) are `Nat`; `u32` command payloads are
  `Nat` (the `u32 as usize` cast is lossless).
* `i32` values are `Int`; the wrapping `i32 as usize` cast is `usizeOfInt`,
  which reduces modulo 2^64.
* A Rust panic (out-of-bounds index, `unwrap` of `None`) is `Option.none`;
  functions that can panic return `Option`.
* The unbounded `loop` of `State::check_direction` is translated with a fuel
  argument; exhausted fuel is also `none` (the loop did not return normally).
  All theorems below prove `some` results, so the fuel never matters there.
-/

namespace TickTackToe

inductive Player where
  | Naughts
  | Crosses
deriving DecidableEq, Repr

abbrev Cell := Option Player

abbrev Grid := List (List Cell)

/-- `State` from src/server.rs (same struct in src/lib.rs and src/client.rs). -/
structure State where
  winner : Option (Player × ((Nat × Nat) × (Nat × Nat)))
  turn : Player
  grid : Grid
  size : Nat
  win : Nat
  gravity : Bool
deriving DecidableEq, Repr

/-- `Command` from src/server.rs / src/lib.rs. -/
inductive Command where
  | Place (col row : Nat)
  | Restart
  | StartGame
  | SetWinCondition (n : Nat)
  | SetGridSize (n : Nat)
  | SetGravity (b : Bool)
deriving DecidableEq, Repr

/-- `State::new` (src/server.rs lines 23-32). -/
def State.new (size win : Nat) (gravity : Bool) : State :=
  { winner := none
    turn := Player.Naughts
    grid := List.replicate size (List.replicate size none)
    size := size
    win := win
    gravity := gravity }

/-- The wrapping `i32 as usize` cast (two's complement reinterpretation,
64-bit `usize`). -/
def usizeOfInt (n : Int) : Nat := (n % (2 ^ 64 : Int)).toNat

/-- Loop body of `State::check_direction` (src/server.rs lines 36-52),
with explicit fuel. Each iteration first advances `(col, row)` by `(x, y)`,
then runs the bounds check `size - 1 < col as usize || col < 0 || ...`
(the `as usize` casts are wrapping), then reads `grid[col][row]`
(`none` if that index would panic). -/
def checkDirectionAux (s : State) (player : Player) (x y : Int) :
    Nat → Int → Int → Option Nat
  | 0, _, _ => none
  | fuel + 1, col0, row0 =>
    let col := col0 + x
    let row := row0 + y
    if s.size - 1 < usizeOfInt col ∨ col < 0 ∨ s.size - 1 < usizeOfInt row ∨ row < 0 then
      some 0
    else
      match s.grid.get? (usizeOfInt col) with
      | none => none
      | some column =>
        match column.get? (usizeOfInt row) with
        | none => none
        | some cell =>
          if cell = some player then
            match checkDirectionAux s player x y fuel col row with
            | none => none
            | some c => some (c + 1)
          else
            some 0

/-- `State::check_direction` (src/server.rs lines 36-52). Fuel `size + 1`
is enough for every call made by `Game::simulate`: the walk starts inside
the grid and one coordinate moves by ±1 each step, so the bounds check
fires within `size` iterations. -/
def State.checkDirection (s : State) (col row x y : Int) (player : Player) : Option Nat :=
  checkDirectionAux s player x y (s.size + 1) col row

/-- The four `(forward, backward)` direction pairs of `Game::simulate`
(src/server.rs lines 108-113). -/
def dirPairs : List ((Int × Int) × (Int × Int)) :=
  [((1, 0), (-1, 0)), ((0, 1), (0, -1)), ((1, 1), (-1, -1)), ((-1, 1), (1, -1))]

/-- The win-check loop of `Game::simulate` (src/server.rs lines 108-148):
for each direction pair it counts forward and backward from the placed cell;
if `forward + backward + 1 >= win` it returns the new `winner` value
(note: the source hardcodes `Player::Crosses` as the recorded player) and
breaks; if no pair wins, `winner` is left as it was. -/
def winScan (s : State) (col row : Nat) :
    List ((Int × Int) × (Int × Int)) →
    Option (Option (Player × ((Nat × Nat) × (Nat × Nat))))
  | [] => some s.winner
  | (f, b) :: rest =>
    match s.checkDirection (col : Int) (row : Int) f.1 f.2 s.turn,
          s.checkDirection (col : Int) (row : Int) b.1 b.2 s.turn with
    | some fc, some bc =>
      if s.win ≤ fc + bc + 1 then
        some (some (Player.Crosses,
          ((Int.toNat (max ((col : Int) + f.1 * (fc : Int)) 0),
            Int.toNat (max ((row : Int) + f.2 * (fc : Int)) 0)),
           (Int.toNat (max ((col : Int) + b.1 * (bc : Int)) 0),
            Int.toNat (max ((row : Int) + b.2 * (bc : Int)) 0)))))
      else
        winScan s col row rest
    | _, _ => none

/-- `Game` from src/server.rs (lines 73-76). -/
structure Game where
  state : State
deriving DecidableEq, Repr

/-- Tail of the `Command::Place` arm of `Game::simulate` after a piece was
placed (or, for the gravity loop that found no empty cell, after the loop
fell through without placing): run the win check at `(col, row)` on the
updated grid and toggle the turn (src/server.rs lines 108-152). -/
def placeAndScore (s : State) (col row : Nat) (grid' : Grid) : Option Game :=
  let s' := { s with grid := grid' }
  match winScan s' col row dirPairs with
  | none => none
  | some w =>
    some ⟨{ s' with
            winner := w
            turn := match s'.turn with
              | Player.Naughts => Player.Crosses
              | Player.Crosses => Player.Naughts }⟩

/-- `Game::simulate` (src/server.rs lines 79-159). `none` models a panic.
The gravity arm first checks `grid[col][0]`; if it is occupied the click is
a non-move, otherwise the loop scans rows from `len - 1` down to `0` and
places at the first empty cell found (captured as the real row value). -/
def Game.simulate (g : Game) (cmd : Command) : Option Game :=
  match cmd with
  | Command.Place coln rown =>
    let s := g.state
    if s.winner.isSome then some g
    else if s.gravity then
      match s.grid.get? coln with
      | none => none
      | some column =>
        match column.get? 0 with
        | none => none
        | some (some _) => some g
        | some none =>
          match (List.range column.length).reverse.find?
              (fun ii => (column.getD ii none).isNone) with
          | some ii =>
            placeAndScore s coln ii (s.grid.set coln (column.set ii (some s.turn)))
          | none => placeAndScore s coln rown s.grid
    else
      match s.grid.get? coln with
      | none => none
      | some column =>
        match column.get? rown with
        | none => none
        | some (some _) => some g
        | some none =>
          placeAndScore s coln rown (s.grid.set coln (column.set rown (some s.turn)))
  | Command.Restart => some ⟨State.new g.state.size g.state.win g.state.gravity⟩
  | _ => some g

/-! ## Lobby and connection handling (src/server.rs lines 162-314) -/

/-- `Uuid` values are opaque identifiers; modelled as `Nat`. -/
abbrev Uuid := Nat

/-- `Client` (src/server.rs lines 162-167). The websocket `out: Sender` handle
and the back-reference to the shared lobby are transport plumbing; the sends
made through `out` are returned explicitly by `Lobby.apply` below. -/
structure Client where
  id : Uuid
deriving DecidableEq, Repr

/-- `ClientMessage` (src/server.rs lines 169-173). -/
structure ClientMessage where
  id : Uuid
  cmd : Command
deriving DecidableEq, Repr

/-- `GameSettings` (src/server.rs lines 187-192). -/
structure GameSettings where
  grid_size : Option Nat
  win_condition : Option Nat
  gravity : Option Bool
deriving DecidableEq, Repr

/-- `GameSettings::is_valid` (src/server.rs lines 290-304). -/
def GameSettings.is_valid (s : GameSettings) : Bool :=
  if s.grid_size = none then false
  else if s.win_condition = none then false
  else if s.gravity = none then false
  else true

/-- `impl Default for GameSettings` (src/server.rs lines 306-314). -/
def GameSettings.defaultSettings : GameSettings :=
  { grid_size := none, win_condition := none, gravity := none }

/-- `Lobby` (src/server.rs lines 175-181). The `HashMap<Uuid, Player>` is
modelled as an association list with `hashInsert` below. -/
structure Lobby where
  players : List (Uuid × Player)
  spectators : List Client
  settings : GameSettings
  game : Option Game
deriving DecidableEq, Repr

/-- `HashMap::insert`: replace the value when the key is present, otherwise
add a new entry. -/
def hashInsert (m : List (Uuid × Player)) (k : Uuid) (v : Player) : List (Uuid × Player) :=
  if (List.lookup k m).isSome then
    m.map (fun e => if e.1 = k then (k, v) else e)
  else
    m ++ [(k, v)]

/-- `SharedLobby::connection_made` (src/server.rs lines 207-223). The freshly
generated `Uuid::new_v4()` is a parameter `id`; the mutex lock is modelled as
always succeeding. Returns the updated lobby and the created client handler. -/
def connection_made (l : Lobby) (id : Uuid) : Lobby × Client :=
  let client : Client := ⟨id⟩
  let player_count := l.players.length
  let players' :=
    if player_count < 1 then hashInsert l.players id Player.Crosses
    else if player_count < 2 then hashInsert l.players id Player.Naughts
    else l.players
  ({ l with players := players', spectators := l.spectators ++ [client] }, client)

/-- `Lobby::apply` (src/server.rs lines 227-271). The sends performed through
the spectators' websocket handles are returned as a list of
`(recipient id, broadcast state)` pairs (the serialized JSON payload is the
state itself; `serde_json::to_string` cannot fail on `State`). `none` models
a panic: the only panics are inside `game.simulate` and the
`settings.*.unwrap()` calls, the latter unreachable because they are guarded
by `is_valid`. In the `StartGame` arm the source condition is
`is_valid() && self.game.is_none()`; `self.game` was emptied by `take()` in
this branch, so the second conjunct is always true there. -/
def Lobby.apply (l : Lobby) (msg : ClientMessage) : Option (Lobby × List (Uuid × State)) :=
  match List.lookup msg.id l.players with
  | none => some (l, [])
  | some player =>
    match l.game with
    | some game =>
      if player = game.state.turn then
        match game.simulate msg.cmd with
        | none => none
        | some game' =>
          some ({ l with game := some game' },
                l.spectators.map (fun c => (c.id, game'.state)))
      else
        some ({ l with game := some game }, [])
    | none =>
      match msg.cmd with
      | Command.SetWinCondition wc =>
        some ({ l with settings := { l.settings with win_condition := some wc } }, [])
      | Command.SetGridSize gs =>
        some ({ l with settings := { l.settings with grid_size := some gs } }, [])
      | Command.SetGravity gr =>
        some ({ l with settings := { l.settings with gravity := some gr } }, [])
      | Command.StartGame =>
        if l.settings.is_valid then
          match l.settings.grid_size, l.settings.win_condition, l.settings.gravity with
          | some gs, some wc, some gr =>
            some ({ l with game := some ⟨State.new gs wc gr⟩ }, [])
          | _, _, _ => none
        else
          some (l, [])
      | _ => some (l, [])

/-! ## Spec-side definitions -/

/-- The grid has exactly `size` columns, each of length `size`; this is how
`State::new` builds it and what the bounds checks of `check_direction`
assume. -/
def wellFormed (s : State) : Prop :=
  s.grid.length = s.size ∧ ∀ column ∈ s.grid, column.length = s.size

/-- Read a grid cell (total; out-of-range reads give `none`). -/
def getCell (s : State) (c r : Nat) : Cell :=
  (s.grid.getD c []).getD r none

/-- The cell at integer coordinates `(c, r)` is in range and holds `p`. -/
def cellIsInt (s : State) (c r : Int) (p : Player) : Prop :=
  0 ≤ c ∧ 0 ≤ r ∧ getCell s c.toNat r.toNat = some p

/-- The four line orientations of the grid: row, column, the two diagonals. -/
def specAxes : List (Int × Int) := [(1, 0), (0, 1), (1, 1), (-1, 1)]

/-- Reference definition of a win at a cell, following the spec: the grid
contains a line of at least `win` consecutive marks of player `p` along a
row, column, or diagonal, passing through the cell `(col, row)`. -/
def specLineThrough (s : State) (col row : Nat) (p : Player) : Prop :=
  ∃ d ∈ specAxes, ∃ a b : Nat,
    s.win ≤ a + b + 1 ∧
    ∀ k : Int, -(b : Int) ≤ k → k ≤ (a : Int) →
      cellIsInt s ((col : Int) + k * d.1) ((row : Int) + k * d.2) p

/-- In a column, every cell below (at a larger row index than) an occupied
cell is occupied. Columns of a game played under gravity always look like
this: pieces stack from the bottom. -/
def columnCompact (column : List Cell) : Prop :=
  ∀ j, j < column.length → ∀ i, i < j →
    (column.getD i none).isSome = true → (column.getD j none).isSome = true

/-- Every cell of the column is occupied. -/
def columnFull (column : List Cell) : Prop :=
  ∀ i, i < column.length → (column.getD i none).isSome = true

/-- Total number of marks on the grid. -/
def markCount (s : State) : Nat :=
  (s.grid.map (fun column => (column.filter (fun c => c.isSome)).length)).sum

instance wellFormedDec (s : State) : Decidable (wellFormed s) :=
  decidable_of_iff
    (s.grid.length = s.size ∧ ∀ column ∈ s.grid, column.length = s.size) Iff.rfl

instance columnCompactDec (column : List Cell) : Decidable (columnCompact column) :=
  decidable_of_iff
    (∀ j, j < column.length → ∀ i, i < j →
      (column.getD i none).isSome = true → (column.getD j none).isSome = true) Iff.rfl

instance columnFullDec (column : List Cell) : Decidable (columnFull column) :=
  decidable_of_iff
    (∀ i, i < column.length → (column.getD i none).isSome = true) Iff.rfl

/-! ## List helper lemmas -/

lemma getD_get?_eq {α : Type} (l : List α) (n : Nat) (d : α) :
    l.getD n d = (l.get? n).getD d := rfl

lemma getD_eq_of_get? {α : Type} {l : List α} {n : Nat} {a : α} (d : α)
    (h : l.get? n = some a) : l.getD n d = a := by
  rw [getD_get?_eq, h]; rfl

lemma get?_eq_some_getD {α : Type} {l : List α} {n : Nat} (d : α) (h : n < l.length) :
    l.get? n = some (l.getD n d) := by
  rw [getD_get?_eq]
  rcases (List.get?_eq_some.mpr ⟨h, rfl⟩ : l.get? n = some (l.get ⟨n, h⟩)) with h'
  rw [h']; rfl

/-- `find?` over the descending list `[n-1, ..., 0]`: a hit is the largest
index satisfying the predicate. -/
lemma findRevRange_spec (p : Nat → Bool) :
    ∀ n ii, (List.range n).reverse.find? p = some ii →
      p ii = true ∧ ii < n ∧ ∀ j, ii < j → j < n → p j = false := by
  intro n
  induction n with
  | zero => intro ii h; simp at h
  | succ m ih =>
    intro ii h
    rw [List.range_succ, List.reverse_append] at h
    simp only [List.reverse_singleton, List.singleton_append] at h
    by_cases hm : p m = true
    · rw [List.find?_cons_of_pos _ hm] at h
      rcases Option.some.inj h with rfl
      exact ⟨hm, Nat.lt_succ_self m, fun j hj hj' => absurd hj' (by omega)⟩
    · rw [List.find?_cons_of_neg _ (by simpa using hm)] at h
      rcases ih ii h with ⟨h1, h2, h3⟩
      refine ⟨h1, by omega, fun j hj hj' => ?_⟩
      rcases Nat.lt_succ_iff_lt_or_eq.mp hj' with hlt | rfl
      · exact h3 j hj hlt
      · simpa using hm

lemma findRevRange_exists (p : Nat → Bool) :
    ∀ n, (∃ i, i < n ∧ p i = true) →
      ∃ ii, (List.range n).reverse.find? p = some ii := by
  intro n
  induction n with
  | zero => rintro ⟨i, hi, _⟩; omega
  | succ m ih =>
    rintro ⟨i, hi, hp⟩
    rw [List.range_succ, List.reverse_append]
    simp only [List.reverse_singleton, List.singleton_append]
    by_cases hm : p m = true
    · exact ⟨m, List.find?_cons_of_pos _ hm⟩
    · rw [List.find?_cons_of_neg _ (by simpa using hm)]
      apply ih
      refine ⟨i, ?_, hp⟩
      rcases Nat.lt_succ_iff_lt_or_eq.mp hi with hlt | rfl
      · exact hlt
      · exact absurd hp (by simpa using hm)

/-! ## Bounds-check helper lemmas -/

lemma usizeOfInt_of_nonneg {c : Int} (h0 : 0 ≤ c) (h64 : c < 2 ^ 64) :
    usizeOfInt c = c.toNat := by
  unfold usizeOfInt
  rw [Int.emod_eq_of_lt h0 h64]

/-- For coordinates that stayed within one step of the grid, the source's
bounds check `size - 1 < col as usize || col < 0 || ...` fails exactly when
both coordinates are inside `[0, size)`. -/
lemma guard_false_iff (s : State) (h1 : 1 ≤ s.size) (h31 : s.size ≤ 2 ^ 31)
    {col row : Int} (hc : col ≤ (s.size : Int)) (hr : row ≤ (s.size : Int)) :
    (¬ (s.size - 1 < usizeOfInt col ∨ col < 0 ∨
        s.size - 1 < usizeOfInt row ∨ row < 0)) ↔
      (0 ≤ col ∧ col < (s.size : Int) ∧ 0 ≤ row ∧ row < (s.size : Int)) := by
  constructor
  · intro h
    push_neg at h
    rcases h with ⟨hg1, hg2, hg3, hg4⟩
    have hc64 : col < 2 ^ 64 := by
      have : (s.size : Int) ≤ 2 ^ 31 := by exact_mod_cast h31
      omega
    have hr64 : row < 2 ^ 64 := by
      have : (s.size : Int) ≤ 2 ^ 31 := by exact_mod_cast h31
      omega
    rw [usizeOfInt_of_nonneg hg2 hc64] at hg1
    rw [usizeOfInt_of_nonneg hg4 hr64] at hg3
    have hcn : (col.toNat : Int) = col := Int.toNat_of_nonneg hg2
    have hrn : (row.toNat : Int) = row := Int.toNat_of_nonneg hg4
    refine ⟨hg2, ?_, hg4, ?_⟩ <;> omega
  · rintro ⟨hc0, hcs, hr0, hrs⟩
    have hc64 : col < 2 ^ 64 := by
      have : (s.size : Int) ≤ 2 ^ 31 := by exact_mod_cast h31
      omega
    have hr64 : row < 2 ^ 64 := by
      have : (s.size : Int) ≤ 2 ^ 31 := by exact_mod_cast h31
      omega
    push_neg
    rw [usizeOfInt_of_nonneg hc0 hc64, usizeOfInt_of_nonneg hr0 hr64]
    have hcn : (col.toNat : Int) = col := Int.toNat_of_nonneg hc0
    have hrn : (row.toNat : Int) = row := Int.toNat_of_nonneg hr0
    refine ⟨?_, hc0, ?_, hr0⟩ <;> omega

/-! ## check_direction lemmas -/

lemma checkDirectionAux_succ (s : State) (player : Player) (x y : Int)
    (f : Nat) (col0 row0 : Int) :
    checkDirectionAux s player x y (f + 1) col0 row0 =
      (if s.size - 1 < usizeOfInt (col0 + x) ∨ col0 + x < 0 ∨
          s.size - 1 < usizeOfInt (row0 + y) ∨ row0 + y < 0 then
        some 0
      else
        match s.grid.get? (usizeOfInt (col0 + x)) with
        | none => none
        | some column =>
          match column.get? (usizeOfInt (row0 + y)) with
          | none => none
          | some cell =>
            if cell = some player then
              match checkDirectionAux s player x y f (col0 + x) (row0 + y) with
              | none => none
              | some c => some (c + 1)
            else
              some 0) := rfl

lemma toNat_lt_size {s : State} {c : Int} (h0 : 0 ≤ c) (hs : c < (s.size : Int)) :
    c.toNat < s.size := by omega

/-- Termination of the `check_direction` loop: from an in-grid start, moving
along a direction whose active coordinate steps by ±1, the loop returns
normally given fuel covering the distance to the boundary. -/
lemma checkDirectionAux_isSome (s : State) (player : Player) (x y : Int)
    (hshape : wellFormed s) (h1 : 1 ≤ s.size) (h31 : s.size ≤ 2 ^ 31)
    (hx : x = -1 ∨ x = 0 ∨ x = 1) (hy : y = -1 ∨ y = 0 ∨ y = 1) :
    ∀ (fuel : Nat) (col row : Int), 0 ≤ col → col < (s.size : Int) → 0 ≤ row →
    row < (s.size : Int) →
    ((x = 1 ∧ (s.size : Int) - col ≤ fuel) ∨ (x = -1 ∧ col + 1 ≤ fuel) ∨
     (x = 0 ∧ y = 1 ∧ (s.size : Int) - row ≤ fuel) ∨
     (x = 0 ∧ y = -1 ∧ row + 1 ≤ fuel)) →
    ∃ c, checkDirectionAux s player x y fuel col row = some c := by
  intro fuel
  induction fuel with
  | zero =>
    intro col row hc0 hcs hr0 hrs hm
    exfalso
    rcases hm with ⟨_, h⟩ | ⟨_, h⟩ | ⟨_, _, h⟩ | ⟨_, _, h⟩ <;>
      simp only [Nat.cast_zero] at h <;> omega
  | succ f ih =>
    intro col row hc0 hcs hr0 hrs hm
    rw [checkDirectionAux_succ]
    by_cases hguard : s.size - 1 < usizeOfInt (col + x) ∨ col + x < 0 ∨
        s.size - 1 < usizeOfInt (row + y) ∨ row + y < 0
    · exact ⟨0, if_pos hguard⟩
    · rw [if_neg hguard]
      have hcx : col + x ≤ (s.size : Int) := by rcases hx with h | h | h <;> omega
      have hry : row + y ≤ (s.size : Int) := by rcases hy with h | h | h <;> omega
      have hb := (guard_false_iff s h1 h31 hcx hry).mp hguard
      obtain ⟨hb1, hb2, hb3, hb4⟩ := hb
      have hc64 : col + x < 2 ^ 64 := by
        have : (s.size : Int) ≤ 2 ^ 31 := by exact_mod_cast h31
        omega
      have hr64 : row + y < 2 ^ 64 := by
        have : (s.size : Int) ≤ 2 ^ 31 := by exact_mod_cast h31
        omega
      rw [usizeOfInt_of_nonneg hb1 hc64, usizeOfInt_of_nonneg hb3 hr64]
      have hcnlt : (col + x).toNat < s.grid.length := by
        rw [hshape.1]; exact toNat_lt_size hb1 hb2
      have hget1 : s.grid.get? ((col + x).toNat) =
          some (s.grid.getD ((col + x).toNat) []) := get?_eq_some_getD [] hcnlt
      have hmem : s.grid.getD ((col + x).toNat) [] ∈ s.grid := List.get?_mem hget1
      have hclen : (s.grid.getD ((col + x).toNat) []).length = s.size :=
        hshape.2 _ hmem
      have hrnlt : (row + y).toNat < (s.grid.getD ((col + x).toNat) []).length := by
        rw [hclen]; exact toNat_lt_size hb3 hb4
      have hget2 : (s.grid.getD ((col + x).toNat) []).get? ((row + y).toNat) =
          some ((s.grid.getD ((col + x).toNat) []).getD ((row + y).toNat) none) :=
        get?_eq_some_getD none hrnlt
      rw [hget1]
      simp only
      rw [hget2]
      simp only
      by_cases hcell :
          (s.grid.getD ((col + x).toNat) []).getD ((row + y).toNat) none = some player
      · rw [if_pos hcell]
        have hm' : (x = 1 ∧ (s.size : Int) - (col + x) ≤ f) ∨
            (x = -1 ∧ (col + x) + 1 ≤ f) ∨
            (x = 0 ∧ y = 1 ∧ (s.size : Int) - (row + y) ≤ f) ∨
            (x = 0 ∧ y = -1 ∧ (row + y) + 1 ≤ f) := by
          rcases hm with ⟨hx1, h⟩ | ⟨hx1, h⟩ | ⟨hx1, hy1, h⟩ | ⟨hx1, hy1, h⟩
          · exact Or.inl ⟨hx1, by push_cast at h ⊢; omega⟩
          · exact Or.inr (Or.inl ⟨hx1, by push_cast at h ⊢; omega⟩)
          · exact Or.inr (Or.inr (Or.inl ⟨hx1, hy1, by push_cast at h ⊢; omega⟩))
          · exact Or.inr (Or.inr (Or.inr ⟨hx1, hy1, by push_cast at h ⊢; omega⟩))
        obtain ⟨c, hc⟩ := ih (col + x) (row + y) hb1 hb2 hb3 hb4 hm'
        rw [hc]
        exact ⟨c + 1, rfl⟩
      · rw [if_neg hcell]
        exact ⟨0, rfl⟩

/-- Every counted piece is a mark of `player` inside the grid, `k` steps from
the start along `(x, y)`. -/
lemma checkDirectionAux_sound (s : State) (player : Player) (x y : Int)
    (hshape : wellFormed s) (h1 : 1 ≤ s.size) (h31 : s.size ≤ 2 ^ 31)
    (hx : x = -1 ∨ x = 0 ∨ x = 1) (hy : y = -1 ∨ y = 0 ∨ y = 1) :
    ∀ fuel (col row : Int) (c : Nat), 0 ≤ col → col < (s.size : Int) → 0 ≤ row →
    row < (s.size : Int) →
    checkDirectionAux s player x y fuel col row = some c →
    ∀ k : Int, 1 ≤ k → k ≤ (c : Int) →
      (0 ≤ col + k * x ∧ col + k * x < (s.size : Int) ∧
       0 ≤ row + k * y ∧ row + k * y < (s.size : Int)) ∧
      getCell s (col + k * x).toNat (row + k * y).toNat = some player := by
  intro fuel
  induction fuel with
  | zero => intro col row c _ _ _ _ h; simp [checkDirectionAux] at h
  | succ f ih =>
    intro col row c hc0 hcs hr0 hrs h k hk1 hkc
    rw [checkDirectionAux_succ] at h
    by_cases hguard : s.size - 1 < usizeOfInt (col + x) ∨ col + x < 0 ∨
        s.size - 1 < usizeOfInt (row + y) ∨ row + y < 0
    · rw [if_pos hguard] at h
      rcases Option.some.inj h with rfl
      exfalso; simp only [Nat.cast_zero] at hkc; omega
    · rw [if_neg hguard] at h
      have hcx : col + x ≤ (s.size : Int) := by rcases hx with h' | h' | h' <;> omega
      have hry : row + y ≤ (s.size : Int) := by rcases hy with h' | h' | h' <;> omega
      obtain ⟨hb1, hb2, hb3, hb4⟩ := (guard_false_iff s h1 h31 hcx hry).mp hguard
      have hc64 : col + x < 2 ^ 64 := by
        have : (s.size : Int) ≤ 2 ^ 31 := by exact_mod_cast h31
        omega
      have hr64 : row + y < 2 ^ 64 := by
        have : (s.size : Int) ≤ 2 ^ 31 := by exact_mod_cast h31
        omega
      rw [usizeOfInt_of_nonneg hb1 hc64, usizeOfInt_of_nonneg hb3 hr64] at h
      have hcnlt : (col + x).toNat < s.grid.length := by
        rw [hshape.1]; exact toNat_lt_size hb1 hb2
      have hget1 : s.grid.get? ((col + x).toNat) =
          some (s.grid.getD ((col + x).toNat) []) := get?_eq_some_getD [] hcnlt
      have hmem : s.grid.getD ((col + x).toNat) [] ∈ s.grid := List.get?_mem hget1
      have hclen : (s.grid.getD ((col + x).toNat) []).length = s.size :=
        hshape.2 _ hmem
      have hrnlt : (row + y).toNat < (s.grid.getD ((col + x).toNat) []).length := by
        rw [hclen]; exact toNat_lt_size hb3 hb4
      have hget2 : (s.grid.getD ((col + x).toNat) []).get? ((row + y).toNat) =
          some ((s.grid.getD ((col + x).toNat) []).getD ((row + y).toNat) none) :=
        get?_eq_some_getD none hrnlt
      rw [hget1] at h
      simp only at h
      rw [hget2] at h
      simp only at h
      by_cases hcell :
          (s.grid.getD ((col + x).toNat) []).getD ((row + y).toNat) none = some player
      · rw [if_pos hcell] at h
        cases hrec : checkDirectionAux s player x y f (col + x) (row + y) with
        | none => rw [hrec] at h; exact absurd h (by simp)
        | some c' =>
          rw [hrec] at h
          rcases Option.some.inj h with rfl
          rcases eq_or_lt_of_le hk1 with rfl | hk2
          · refine ⟨⟨by omega, by omega, by omega, by omega⟩, ?_⟩
            simp only [one_mul]
            exact hcell
          · have hk1' : 1 ≤ k - 1 := by omega
            have hkc' : k - 1 ≤ (c' : Int) := by push_cast at hkc ⊢; omega
            have := ih (col + x) (row + y) c' hb1 hb2 hb3 hb4 hrec (k - 1) hk1' hkc'
            have heq1 : col + x + (k - 1) * x = col + k * x := by ring
            have heq2 : row + y + (k - 1) * y = row + k * y := by ring
            rw [heq1, heq2] at this
            exact this
      · rw [if_neg hcell] at h
        rcases Option.some.inj h with rfl
        exfalso; simp only [Nat.cast_zero] at hkc; omega

/-- The counted run is maximal: any run of `m` marks of `player` extending
from the start along `(x, y)` forces a count of at least `m`. -/
lemma checkDirectionAux_complete (s : State) (player : Player) (x y : Int)
    (hshape : wellFormed s) (h1 : 1 ≤ s.size) (h31 : s.size ≤ 2 ^ 31) :
    ∀ (m : Nat), ∀ fuel (col row : Int) (c : Nat),
    0 ≤ col → col < (s.size : Int) → 0 ≤ row → row < (s.size : Int) →
    checkDirectionAux s player x y fuel col row = some c →
    (∀ k : Int, 1 ≤ k → k ≤ (m : Int) →
      (0 ≤ col + k * x ∧ col + k * x < (s.size : Int) ∧
       0 ≤ row + k * y ∧ row + k * y < (s.size : Int)) ∧
      getCell s (col + k * x).toNat (row + k * y).toNat = some player) →
    m ≤ c := by
  intro m
  induction m with
  | zero => intro fuel col row c _ _ _ _ _ _; omega
  | succ n ih =>
    intro fuel col row c hc0 hcs hr0 hrs h hrun
    have hstep := hrun 1 le_rfl (by omega)
    simp only [one_mul] at hstep
    obtain ⟨⟨hb1, hb2, hb3, hb4⟩, hcellp⟩ := hstep
    cases fuel with
    | zero => simp [checkDirectionAux] at h
    | succ f =>
      rw [checkDirectionAux_succ] at h
      have hcx : col + x ≤ (s.size : Int) := by omega
      have hry : row + y ≤ (s.size : Int) := by omega
      have hguard : ¬ (s.size - 1 < usizeOfInt (col + x) ∨ col + x < 0 ∨
          s.size - 1 < usizeOfInt (row + y) ∨ row + y < 0) :=
        (guard_false_iff s h1 h31 hcx hry).mpr ⟨hb1, hb2, hb3, hb4⟩
      rw [if_neg hguard] at h
      have hc64 : col + x < 2 ^ 64 := by
        have : (s.size : Int) ≤ 2 ^ 31 := by exact_mod_cast h31
        omega
      have hr64 : row + y < 2 ^ 64 := by
        have : (s.size : Int) ≤ 2 ^ 31 := by exact_mod_cast h31
        omega
      rw [usizeOfInt_of_nonneg hb1 hc64, usizeOfInt_of_nonneg hb3 hr64] at h
      have hcnlt : (col + x).toNat < s.grid.length := by
        rw [hshape.1]; exact toNat_lt_size hb1 hb2
      have hget1 : s.grid.get? ((col + x).toNat) =
          some (s.grid.getD ((col + x).toNat) []) := get?_eq_some_getD [] hcnlt
      have hmem : s.grid.getD ((col + x).toNat) [] ∈ s.grid := List.get?_mem hget1
      have hclen : (s.grid.getD ((col + x).toNat) []).length = s.size :=
        hshape.2 _ hmem
      have hrnlt : (row + y).toNat < (s.grid.getD ((col + x).toNat) []).length := by
        rw [hclen]; exact toNat_lt_size hb3 hb4
      have hget2 : (s.grid.getD ((col + x).toNat) []).get? ((row + y).toNat) =
          some ((s.grid.getD ((col + x).toNat) []).getD ((row + y).toNat) none) :=
        get?_eq_some_getD none hrnlt
      rw [hget1] at h
      simp only at h
      rw [hget2] at h
      simp only at h
      have hcell :
          (s.grid.getD ((col + x).toNat) []).getD ((row + y).toNat) none = some player :=
        hcellp
      rw [if_pos hcell] at h
      cases hrec : checkDirectionAux s player x y f (col + x) (row + y) with
      | none => rw [hrec] at h; exact absurd h (by simp)
      | some c' =>
        rw [hrec] at h
        rcases Option.some.inj h with rfl
        have hrun' : ∀ k : Int, 1 ≤ k → k ≤ (n : Int) →
            (0 ≤ (col + x) + k * x ∧ (col + x) + k * x < (s.size : Int) ∧
             0 ≤ (row + y) + k * y ∧ (row + y) + k * y < (s.size : Int)) ∧
            getCell s ((col + x) + k * x).toNat ((row + y) + k * y).toNat =
              some player := by
          intro k hk1 hkn
          have := hrun (k + 1) (by omega) (by omega)
          have heq1 : col + (k + 1) * x = (col + x) + k * x := by ring
          have heq2 : row + (k + 1) * y = (row + y) + k * y := by ring
          rw [heq1, heq2] at this
          exact this
        have := ih f (col + x) (row + y) c' hb1 hb2 hb3 hb4 hrec hrun'
        omega

/-- `check_direction` with the fuel used by the embedding (`size + 1`)
returns normally from any in-grid start along any of the eight scan
directions, and its count is at most `size - 1`. -/
lemma checkDirection_total (s : State) (player : Player) (x y : Int)
    (hshape : wellFormed s) (h1 : 1 ≤ s.size) (h31 : s.size ≤ 2 ^ 31)
    (hx : x = -1 ∨ x = 0 ∨ x = 1) (hy : y = -1 ∨ y = 0 ∨ y = 1)
    (hxy : ¬ (x = 0 ∧ y = 0))
    {col row : Int} (hc0 : 0 ≤ col) (hcs : col < (s.size : Int))
    (hr0 : 0 ≤ row) (hrs : row < (s.size : Int)) :
    ∃ c, s.checkDirection col row x y player = some c ∧ c ≤ s.size - 1 := by
  have hm : (x = 1 ∧ (s.size : Int) - col ≤ (s.size + 1 : Nat)) ∨
      (x = -1 ∧ col + 1 ≤ (s.size + 1 : Nat)) ∨
      (x = 0 ∧ y = 1 ∧ (s.size : Int) - row ≤ (s.size + 1 : Nat)) ∨
      (x = 0 ∧ y = -1 ∧ row + 1 ≤ (s.size + 1 : Nat)) := by
    rcases hx with hx' | hx' | hx'
    · exact Or.inr (Or.inl ⟨hx', by omega⟩)
    · rcases hy with hy' | hy' | hy'
      · exact Or.inr (Or.inr (Or.inr ⟨hx', hy', by omega⟩))
      · exact absurd ⟨hx', hy'⟩ hxy
      · exact Or.inr (Or.inr (Or.inl ⟨hx', hy', by omega⟩))
    · exact Or.inl ⟨hx', by omega⟩
  obtain ⟨c, hc⟩ := checkDirectionAux_isSome s player x y hshape h1 h31 hx hy
    (s.size + 1) col row hc0 hcs hr0 hrs hm
  refine ⟨c, hc, ?_⟩
  rcases Nat.eq_zero_or_pos c with rfl | hcpos
  · omega
  · have hson := checkDirectionAux_sound s player x y hshape h1 h31 hx hy
      (s.size + 1) col row c hc0 hcs hr0 hrs hc (c : Int)
      (by omega) le_rfl
    obtain ⟨⟨hb1, hb2, hb3, hb4⟩, _⟩ := hson
    rcases hx with hx' | hx' | hx'
    · subst hx'; omega
    · subst hx'
      rcases hy with hy' | hy' | hy'
      · subst hy'; omega
      · exact absurd ⟨rfl, hy'⟩ hxy
      · subst hy'; omega
    · subst hx'; omega

/-! ## winScan lemmas -/

lemma winScan_isSome (s : State) (col row : Nat) :
    ∀ L : List ((Int × Int) × (Int × Int)),
    (∀ p ∈ L, (s.checkDirection (col : Int) (row : Int) p.1.1 p.1.2 s.turn).isSome = true ∧
      (s.checkDirection (col : Int) (row : Int) p.2.1 p.2.2 s.turn).isSome = true) →
    ∃ r, winScan s col row L = some r := by
  intro L
  induction L with
  | nil => intro _; exact ⟨s.winner, rfl⟩
  | cons hd tl ih =>
    intro hall
    obtain ⟨hf, hb⟩ := hall hd (List.mem_cons_self hd tl)
    obtain ⟨fc, hfc⟩ := Option.isSome_iff_exists.mp hf
    obtain ⟨bc, hbc⟩ := Option.isSome_iff_exists.mp hb
    obtain ⟨f, b⟩ := hd
    rw [winScan]
    simp only at hfc hbc
    rw [hfc, hbc]
    dsimp only
    by_cases hwin : s.win ≤ fc + bc + 1
    · rw [if_pos hwin]
      exact ⟨_, rfl⟩
    · rw [if_neg hwin]
      exact ih (fun p hp => hall p (List.mem_cons_of_mem _ hp))

lemma winScan_some_of_win (s : State) (col row : Nat) :
    ∀ L : List ((Int × Int) × (Int × Int)),
    (∀ p ∈ L, (s.checkDirection (col : Int) (row : Int) p.1.1 p.1.2 s.turn).isSome = true ∧
      (s.checkDirection (col : Int) (row : Int) p.2.1 p.2.2 s.turn).isSome = true) →
    (∃ p ∈ L, ∃ fc bc,
      s.checkDirection (col : Int) (row : Int) p.1.1 p.1.2 s.turn = some fc ∧
      s.checkDirection (col : Int) (row : Int) p.2.1 p.2.2 s.turn = some bc ∧
      s.win ≤ fc + bc + 1) →
    ∃ w, winScan s col row L = some (some w) := by
  intro L
  induction L with
  | nil => rintro _ ⟨p, hp, _⟩; simp at hp
  | cons hd tl ih =>
    rintro hall ⟨p, hp, fc0, bc0, hfc0, hbc0, hwin0⟩
    obtain ⟨hf, hb⟩ := hall hd (List.mem_cons_self hd tl)
    obtain ⟨fc, hfc⟩ := Option.isSome_iff_exists.mp hf
    obtain ⟨bc, hbc⟩ := Option.isSome_iff_exists.mp hb
    obtain ⟨f, b⟩ := hd
    rw [winScan]
    simp only at hfc hbc
    rw [hfc, hbc]
    dsimp only
    by_cases hwin : s.win ≤ fc + bc + 1
    · rw [if_pos hwin]
      exact ⟨_, rfl⟩
    · rw [if_neg hwin]
      apply ih (fun q hq => hall q (List.mem_cons_of_mem _ hq))
      rcases List.mem_cons.mp hp with rfl | hptl
      · exfalso
        simp only at hfc0 hbc0
        rw [hfc0] at hfc; rw [hbc0] at hbc
        rcases Option.some.inj hfc with rfl
        rcases Option.some.inj hbc with rfl
        exact hwin hwin0
      · exact ⟨p, hptl, fc0, bc0, hfc0, hbc0, hwin0⟩

lemma winScan_win_of_some (s : State) (col row : Nat) (hw : s.winner = none) :
    ∀ (L : List ((Int × Int) × (Int × Int))) (w : Player × ((Nat × Nat) × (Nat × Nat))),
    winScan s col row L = some (some w) →
    ∃ p ∈ L, ∃ fc bc,
      s.checkDirection (col : Int) (row : Int) p.1.1 p.1.2 s.turn = some fc ∧
      s.checkDirection (col : Int) (row : Int) p.2.1 p.2.2 s.turn = some bc ∧
      s.win ≤ fc + bc + 1 := by
  intro L
  induction L with
  | nil =>
    intro w h
    rw [winScan, hw] at h
    exact absurd (Option.some.inj h) (by simp)
  | cons hd tl ih =>
    intro w h
    obtain ⟨f, b⟩ := hd
    rw [winScan] at h
    cases hfc : s.checkDirection (col : Int) (row : Int) f.1 f.2 s.turn with
    | none => rw [hfc] at h; simp at h
    | some fc =>
      cases hbc : s.checkDirection (col : Int) (row : Int) b.1 b.2 s.turn with
      | none => rw [hfc, hbc] at h; simp at h
      | some bc =>
        rw [hfc, hbc] at h
        simp only at h
        by_cases hwin : s.win ≤ fc + bc + 1
        · exact ⟨(f, b), List.mem_cons_self _ _, fc, bc, hfc, hbc, hwin⟩
        · rw [if_neg hwin] at h
          obtain ⟨p, hp, res⟩ := ih w h
          exact ⟨p, List.mem_cons_of_mem _ hp, res⟩

/-! ## Cell helper lemmas -/

lemma getD_eq_default_of_le {α : Type} (l : List α) (d : α) {n : Nat}
    (h : l.length ≤ n) : l.getD n d = d := by
  rw [getD_get?_eq, List.get?_len_le h]; rfl

/-- A cell that holds a mark is inside a well-formed grid. -/
lemma cellIsInt_bounds (s : State) (hshape : wellFormed s) {c r : Int} {p : Player}
    (h : cellIsInt s c r p) :
    0 ≤ c ∧ c < (s.size : Int) ∧ 0 ≤ r ∧ r < (s.size : Int) ∧
      getCell s c.toNat r.toNat = some p := by
  obtain ⟨hc0, hr0, hcell⟩ := h
  have hclen : c.toNat < s.grid.length := by
    by_contra hge
    rw [not_lt] at hge
    rw [getCell, getD_eq_default_of_le s.grid [] hge] at hcell
    simp [List.getD] at hcell
  have hcol : s.grid.getD c.toNat [] ∈ s.grid := by
    exact List.get?_mem (get?_eq_some_getD [] hclen)
  have hcollen : (s.grid.getD c.toNat []).length = s.size := hshape.2 _ hcol
  have hrlen : r.toNat < (s.grid.getD c.toNat []).length := by
    by_contra hge
    rw [not_lt] at hge
    rw [getCell, getD_eq_default_of_le _ none hge] at hcell
    exact absurd hcell (by simp)
  refine ⟨hc0, ?_, hr0, ?_, hcell⟩
  · rw [hshape.1] at hclen; omega
  · rw [hcollen] at hrlen; omega

/-! ## Claim C5 -/

/-- C5: win detection after a placement is the four-direction linear scan
from the placed cell, and for a cell in a well-formed grid holding the mark
of the player to move, the scan declares a win exactly when the grid
contains a line of at least `win` consecutive marks of that player passing
through the placed cell (the reference definition `specLineThrough`). -/
theorem win_scan_iff_line_through_cell (s : State) (coln rown : Nat)
    (hshape : wellFormed s) (h1 : 1 ≤ s.size) (h31 : s.size ≤ 2 ^ 31)
    (hw : s.winner = none) (hcol : coln < s.size) (hrow : rown < s.size)
    (hcell : getCell s coln rown = some s.turn) :
    ∃ r, winScan s coln rown dirPairs = some r ∧
      (r.isSome = true ↔ specLineThrough s coln rown s.turn) := by
  have hc0 : (0 : Int) ≤ (coln : Int) := Int.natCast_nonneg coln
  have hcs : (coln : Int) < (s.size : Int) := by exact_mod_cast hcol
  have hr0 : (0 : Int) ≤ (rown : Int) := Int.natCast_nonneg rown
  have hrs : (rown : Int) < (s.size : Int) := by exact_mod_cast hrow
  have hdirs : ∀ p ∈ dirPairs,
      (p.1.1 = -1 ∨ p.1.1 = 0 ∨ p.1.1 = 1) ∧ (p.1.2 = -1 ∨ p.1.2 = 0 ∨ p.1.2 = 1) ∧
      ¬(p.1.1 = 0 ∧ p.1.2 = 0) ∧ p.2.1 = -p.1.1 ∧ p.2.2 = -p.1.2 := by decide
  have hbdir : ∀ p ∈ dirPairs,
      (p.2.1 = -1 ∨ p.2.1 = 0 ∨ p.2.1 = 1) ∧ (p.2.2 = -1 ∨ p.2.2 = 0 ∨ p.2.2 = 1) ∧
      ¬(p.2.1 = 0 ∧ p.2.2 = 0) := by decide
  have hall : ∀ p ∈ dirPairs,
      (s.checkDirection (coln : Int) (rown : Int) p.1.1 p.1.2 s.turn).isSome = true ∧
      (s.checkDirection (coln : Int) (rown : Int) p.2.1 p.2.2 s.turn).isSome = true := by
    intro p hp
    obtain ⟨hx, hy, hxy, _, _⟩ := hdirs p hp
    obtain ⟨hxB, hyB, hxyB⟩ := hbdir p hp
    obtain ⟨fc, hfc, _⟩ := checkDirection_total s s.turn p.1.1 p.1.2 hshape h1 h31
      hx hy hxy hc0 hcs hr0 hrs
    obtain ⟨bc, hbc, _⟩ := checkDirection_total s s.turn p.2.1 p.2.2 hshape h1 h31
      hxB hyB hxyB hc0 hcs hr0 hrs
    exact ⟨by rw [hfc]; rfl, by rw [hbc]; rfl⟩
  obtain ⟨r, hr⟩ := winScan_isSome s coln rown dirPairs hall
  refine ⟨r, hr, ⟨?_, ?_⟩⟩
  · intro hrsome
    obtain ⟨w, hwEq⟩ := Option.isSome_iff_exists.mp hrsome
    subst hwEq
    obtain ⟨p, hp, fc, bc, hfc, hbc, hwin⟩ :=
      winScan_win_of_some s coln rown hw dirPairs w hr
    obtain ⟨hx, hy, hxy, hbx, hby⟩ := hdirs p hp
    have hpax : p.1 ∈ specAxes := by
      have hmem : ∀ q ∈ dirPairs, q.1 ∈ specAxes := by decide
      exact hmem p hp
    refine ⟨p.1, hpax, fc, bc, hwin, ?_⟩
    intro k hk1 hk2
    simp only [cellIsInt]
    rcases lt_trichotomy k 0 with hneg | hzero | hpos
    · have hxB : p.2.1 = -1 ∨ p.2.1 = 0 ∨ p.2.1 = 1 := (hbdir p hp).1
      have hyB := (hbdir p hp).2.1
      have hsound := checkDirectionAux_sound s s.turn p.2.1 p.2.2 hshape h1 h31 hxB hyB
        (s.size + 1) (coln : Int) (rown : Int) bc hc0 hcs hr0 hrs hbc (-k)
        (by omega) (by omega)
      obtain ⟨⟨hbb1, hbb2, hbb3, hbb4⟩, hbcell⟩ := hsound
      have heq1 : (coln : Int) + (-k) * p.2.1 = (coln : Int) + k * p.1.1 := by
        rw [hbx]; ring
      have heq2 : (rown : Int) + (-k) * p.2.2 = (rown : Int) + k * p.1.2 := by
        rw [hby]; ring
      rw [heq1] at hbb1 hbcell
      rw [heq2] at hbb3 hbcell
      exact ⟨hbb1, hbb3, hbcell⟩
    · subst hzero
      refine ⟨by simp, by simp, ?_⟩
      simp only [zero_mul, add_zero]
      rw [Int.toNat_natCast, Int.toNat_natCast]
      exact hcell
    · have hsound := checkDirectionAux_sound s s.turn p.1.1 p.1.2 hshape h1 h31 hx hy
        (s.size + 1) (coln : Int) (rown : Int) fc hc0 hcs hr0 hrs hfc k
        (by omega) hk2
      obtain ⟨⟨hbb1, hbb2, hbb3, hbb4⟩, hbcell⟩ := hsound
      exact ⟨hbb1, hbb3, hbcell⟩
  · intro hspec
    obtain ⟨d, hd, a, b, hwin, hcells⟩ := hspec
    have hpair : (d, (-d.1, -d.2)) ∈ dirPairs := by
      have hmem : ∀ d' ∈ specAxes, (d', (-d'.1, -d'.2)) ∈ dirPairs := by decide
      exact hmem d hd
    have haxes : ∀ d' ∈ specAxes,
        (d'.1 = -1 ∨ d'.1 = 0 ∨ d'.1 = 1) ∧ (d'.2 = -1 ∨ d'.2 = 0 ∨ d'.2 = 1) ∧
        ¬(d'.1 = 0 ∧ d'.2 = 0) := by decide
    obtain ⟨hx, hy, hxy⟩ := haxes d hd
    have hxN : -d.1 = -1 ∨ -d.1 = 0 ∨ -d.1 = 1 := by
      rcases hx with h | h | h <;> rw [h] <;> decide
    have hyN : -d.2 = -1 ∨ -d.2 = 0 ∨ -d.2 = 1 := by
      rcases hy with h | h | h <;> rw [h] <;> decide
    have hxyN : ¬(-d.1 = 0 ∧ -d.2 = 0) := by
      intro hcontra
      exact hxy ⟨by omega, by omega⟩
    obtain ⟨fc, hfc, _⟩ := checkDirection_total s s.turn d.1 d.2 hshape h1 h31
      hx hy hxy hc0 hcs hr0 hrs
    obtain ⟨bc, hbc, _⟩ := checkDirection_total s s.turn (-d.1) (-d.2) hshape h1 h31
      hxN hyN hxyN hc0 hcs hr0 hrs
    have hfor : ∀ k : Int, 1 ≤ k → k ≤ (a : Int) →
        (0 ≤ (coln : Int) + k * d.1 ∧ (coln : Int) + k * d.1 < (s.size : Int) ∧
         0 ≤ (rown : Int) + k * d.2 ∧ (rown : Int) + k * d.2 < (s.size : Int)) ∧
        getCell s ((coln : Int) + k * d.1).toNat ((rown : Int) + k * d.2).toNat =
          some s.turn := by
      intro k hk1 hk2
      have hcik := hcells k (by omega) hk2
      have hb := cellIsInt_bounds s hshape hcik
      exact ⟨⟨hb.1, hb.2.1, hb.2.2.1, hb.2.2.2.1⟩, hb.2.2.2.2⟩
    have ha_le : a ≤ fc := checkDirectionAux_complete s s.turn d.1 d.2 hshape h1 h31
      a (s.size + 1) (coln : Int) (rown : Int) fc hc0 hcs hr0 hrs hfc hfor
    have hback : ∀ k : Int, 1 ≤ k → k ≤ (b : Int) →
        (0 ≤ (coln : Int) + k * (-d.1) ∧ (coln : Int) + k * (-d.1) < (s.size : Int) ∧
         0 ≤ (rown : Int) + k * (-d.2) ∧ (rown : Int) + k * (-d.2) < (s.size : Int)) ∧
        getCell s ((coln : Int) + k * (-d.1)).toNat
          ((rown : Int) + k * (-d.2)).toNat = some s.turn := by
      intro k hk1 hk2
      have hcik := hcells (-k) (by omega) (by omega)
      have hb := cellIsInt_bounds s hshape hcik
      have heq1 : (coln : Int) + (-k) * d.1 = (coln : Int) + k * (-d.1) := by ring
      have heq2 : (rown : Int) + (-k) * d.2 = (rown : Int) + k * (-d.2) := by ring
      rw [heq1, heq2] at hb
      exact ⟨⟨hb.1, hb.2.1, hb.2.2.1, hb.2.2.2.1⟩, hb.2.2.2.2⟩
    have hb_le : b ≤ bc := checkDirectionAux_complete s s.turn (-d.1) (-d.2) hshape h1 h31
      b (s.size + 1) (coln : Int) (rown : Int) bc hc0 hcs hr0 hrs hbc hback
    have hwin' : s.win ≤ fc + bc + 1 := by omega
    obtain ⟨w, hwEq⟩ := winScan_some_of_win s coln rown dirPairs hall
      ⟨(d, (-d.1, -d.2)), hpair, fc, bc, hfc, hbc, hwin'⟩
    rw [hr] at hwEq
    rcases Option.some.inj hwEq with rfl
    rfl

/-- A 3x3 board where Naughts, to move, has just completed the first column
at cell (0, 2). -/
def stColWin : State :=
  { winner := none
    turn := Player.Naughts
    grid := [[some Player.Naughts, some Player.Naughts, some Player.Naughts],
             [some Player.Crosses, some Player.Crosses, none],
             [none, none, none]]
    size := 3
    win := 3
    gravity := false }

/-- Witness for C5 at a concrete winning placement. -/
theorem win_scan_iff_line_through_cell_witness :
    ∃ r, winScan stColWin 0 2 dirPairs = some r ∧
      (r.isSome = true ↔ specLineThrough stColWin 0 2 stColWin.turn) :=
  win_scan_iff_line_through_cell stColWin 0 2 (by decide) (by decide) (by decide)
    rfl (by decide) (by decide) (by decide)

/-! ## Claim C8 -/

/-- C8: for every well-formed square grid of size at least 1 (and of
machine-representable size), every in-grid starting cell and every direction
`(x, y)` in `{-1, 0, 1}^2` other than `(0, 0)`, `check_direction` returns
normally — no out-of-bounds index is ever used, negative intermediate
coordinates being routed to the bounds check by the wrapping `i32 as usize`
cast — and the returned count is at most `size - 1`. -/
theorem check_direction_in_bounds (s : State) (col row x y : Int) (player : Player)
    (hshape : wellFormed s) (h1 : 1 ≤ s.size) (h31 : s.size ≤ 2 ^ 31)
    (hx : x = -1 ∨ x = 0 ∨ x = 1) (hy : y = -1 ∨ y = 0 ∨ y = 1)
    (hxy : ¬ (x = 0 ∧ y = 0))
    (hc0 : 0 ≤ col) (hcs : col < (s.size : Int))
    (hr0 : 0 ≤ row) (hrs : row < (s.size : Int)) :
    ∃ c, s.checkDirection col row x y player = some c ∧ c ≤ s.size - 1 :=
  checkDirection_total s player x y hshape h1 h31 hx hy hxy hc0 hcs hr0 hrs

/-- Witness for C8 on a concrete grid and direction. -/
theorem check_direction_in_bounds_witness :
    ∃ c, stColWin.checkDirection 1 1 (-1) 1 Player.Naughts = some c ∧
      c ≤ stColWin.size - 1 :=
  check_direction_in_bounds stColWin 1 1 (-1) 1 Player.Naughts (by decide) (by decide)
    (by decide) (by decide) (by decide) (by decide) (by decide) (by decide)
    (by decide) (by decide)

/-! ## simulate case lemmas -/

lemma simulate_place_unfold (s : State) (coln rown : Nat) :
    Game.simulate ⟨s⟩ (Command.Place coln rown) =
      (if s.winner.isSome then some ⟨s⟩
       else if s.gravity then
         match s.grid.get? coln with
         | none => none
         | some column =>
           match column.get? 0 with
           | none => none
           | some (some _) => some ⟨s⟩
           | some none =>
             match (List.range column.length).reverse.find?
                 (fun ii => (column.getD ii none).isNone) with
             | some ii =>
               placeAndScore s coln ii (s.grid.set coln (column.set ii (some s.turn)))
             | none => placeAndScore s coln rown s.grid
       else
         match s.grid.get? coln with
         | none => none
         | some column =>
           match column.get? rown with
           | none => none
           | some (some _) => some ⟨s⟩
           | some none =>
             placeAndScore s coln rown
               (s.grid.set coln (column.set rown (some s.turn)))) := rfl

lemma simulate_place_of_winner (s : State) (coln rown : Nat)
    (hw : s.winner.isSome = true) :
    Game.simulate ⟨s⟩ (Command.Place coln rown) = some ⟨s⟩ := by
  rw [simulate_place_unfold, if_pos hw]

lemma simulate_place_nongrav_occupied (s : State) (coln rown : Nat)
    (hw : s.winner.isSome = false) (hg : s.gravity = false)
    {column : List Cell} (hcol : s.grid.get? coln = some column)
    {p : Player} (hocc : column.get? rown = some (some p)) :
    Game.simulate ⟨s⟩ (Command.Place coln rown) = some ⟨s⟩ := by
  rw [simulate_place_unfold, if_neg (by simp [hw]), if_neg (by simp [hg]), hcol]
  dsimp only
  rw [hocc]

lemma simulate_place_nongrav_empty (s : State) (coln rown : Nat)
    (hw : s.winner.isSome = false) (hg : s.gravity = false)
    {column : List Cell} (hcol : s.grid.get? coln = some column)
    (hemp : column.get? rown = some none) :
    Game.simulate ⟨s⟩ (Command.Place coln rown) =
      placeAndScore s coln rown (s.grid.set coln (column.set rown (some s.turn))) := by
  rw [simulate_place_unfold, if_neg (by simp [hw]), if_neg (by simp [hg]), hcol]
  dsimp only
  rw [hemp]

lemma simulate_place_grav_full (s : State) (coln rown : Nat)
    (hw : s.winner.isSome = false) (hg : s.gravity = true)
    {column : List Cell} (hcol : s.grid.get? coln = some column)
    {p : Player} (htop : column.get? 0 = some (some p)) :
    Game.simulate ⟨s⟩ (Command.Place coln rown) = some ⟨s⟩ := by
  rw [simulate_place_unfold, if_neg (by simp [hw]), if_pos hg, hcol]
  dsimp only
  rw [htop]

lemma simulate_place_grav_open (s : State) (coln rown : Nat)
    (hw : s.winner.isSome = false) (hg : s.gravity = true)
    {column : List Cell} (hcol : s.grid.get? coln = some column)
    (htop : column.get? 0 = some none) :
    ∃ ii, (List.range column.length).reverse.find?
        (fun ii => (column.getD ii none).isNone) = some ii ∧
      ii < column.length ∧ column.getD ii none = none ∧
      (∀ j, ii < j → j < column.length → (column.getD j none).isSome = true) ∧
      Game.simulate ⟨s⟩ (Command.Place coln rown) =
        placeAndScore s coln ii (s.grid.set coln (column.set ii (some s.turn))) := by
  have hlen : 0 < column.length := by
    by_contra hc
    rw [not_lt, Nat.le_zero] at hc
    rw [List.get?_len_le (by omega)] at htop
    exact absurd htop (by simp)
  have h0 : column.getD 0 none = none := getD_eq_of_get? none htop
  obtain ⟨ii, hfind⟩ := findRevRange_exists
    (fun ii => (column.getD ii none).isNone) column.length
    ⟨0, hlen, by simp only []; rw [h0]; rfl⟩
  obtain ⟨hpred, hii, hafter⟩ := findRevRange_spec _ column.length ii hfind
  refine ⟨ii, hfind, hii, ?_, ?_, ?_⟩
  · rcases hnone : column.getD ii none with _ | v
    · rfl
    · rw [hnone] at hpred; simp at hpred
  · intro j hj hj'
    have := hafter j hj hj'
    rcases hsome : column.getD j none with _ | v
    · rw [hsome] at this; simp at this
    · rfl
  · rw [simulate_place_unfold, if_neg (by simp [hw]), if_pos hg, hcol]
    dsimp only
    rw [htop]
    dsimp only
    rw [hfind]

/-! ## Claim C1 (code bug) -/

/-- A 3x3 board, win 3, gravity off: Naughts (to move) is one move away from
completing the first column. -/
def stBeforeWin : State :=
  { winner := none
    turn := Player.Naughts
    grid := [[some Player.Naughts, some Player.Naughts, none],
             [some Player.Crosses, some Player.Crosses, none],
             [none, none, none]]
    size := 3
    win := 3
    gravity := false }

/-- C1 (bug evaluation): Naughts is to move and completes three in a column
with `Place(0, 2)`, yet the recorded winner is `Player::Crosses` — the source
hardcodes `Player::Crosses` in the `winner` assignment. -/
theorem place_winner_misattributed :
    stBeforeWin.turn = Player.Naughts ∧
    (Game.simulate ⟨stBeforeWin⟩ (Command.Place 0 2)).map
      (fun g => g.state.winner.map Prod.fst) = some (some Player.Crosses) := by
  decide

/-! ## Claim C3 -/

/-- C3: a `Place` command is rejected as a complete no-op — the whole state,
including grid, turn and winner, is returned unchanged — whenever a winner is
already recorded, or (gravity off) the target cell is already occupied. -/
theorem place_rejected_noop (s : State) (coln rown : Nat)
    (h : s.winner.isSome = true ∨
      (s.gravity = false ∧ ((s.grid.getD coln []).getD rown none).isSome = true)) :
    Game.simulate ⟨s⟩ (Command.Place coln rown) = some ⟨s⟩ := by
  rcases h with hw | ⟨hg, hocc⟩
  · exact simulate_place_of_winner s coln rown hw
  · cases hwin : s.winner.isSome with
    | true => exact simulate_place_of_winner s coln rown hwin
    | false =>
      have hcl : coln < s.grid.length := by
        by_contra hge
        rw [not_lt] at hge
        rw [getD_eq_default_of_le s.grid [] hge] at hocc
        simp [List.getD] at hocc
      have hget1 : s.grid.get? coln = some (s.grid.getD coln []) :=
        get?_eq_some_getD [] hcl
      have hrl : rown < (s.grid.getD coln []).length := by
        by_contra hge
        rw [not_lt] at hge
        rw [getD_eq_default_of_le _ none hge] at hocc
        simp at hocc
      obtain ⟨p, hp⟩ := Option.isSome_iff_exists.mp hocc
      have hget2 : (s.grid.getD coln []).get? rown = some (some p) := by
        rw [get?_eq_some_getD none hrl, hp]
      exact simulate_place_nongrav_occupied s coln rown hwin hg hget1 hget2

/-- Witness for C3: placing on the occupied cell (1, 0) of `stColWin`. -/
theorem place_rejected_noop_witness :
    Game.simulate ⟨stColWin⟩ (Command.Place 1 0) = some ⟨stColWin⟩ :=
  place_rejected_noop stColWin 1 0 (Or.inr ⟨rfl, by decide⟩)

/-! ## Claim C4 -/

lemma placeAndScore_some (s : State) (coln rown : Nat) (grid' : Grid) (g' : Game)
    (h : placeAndScore s coln rown grid' = some g') :
    g'.state.grid = grid' ∧
    g'.state.turn = (match s.turn with
      | Player.Naughts => Player.Crosses
      | Player.Crosses => Player.Naughts) ∧
    g'.state.size = s.size ∧ g'.state.win = s.win ∧ g'.state.gravity = s.gravity := by
  unfold placeAndScore at h
  dsimp only at h
  cases hscan : winScan { s with grid := grid' } coln rown dirPairs with
  | none => rw [hscan] at h; exact absurd h (by simp)
  | some w =>
    rw [hscan] at h
    dsimp only at h
    rcases Option.some.inj h with rfl
    exact ⟨rfl, rfl, rfl, rfl, rfl⟩

lemma set_grid_ne (s : State) (coln idx : Nat) {column : List Cell}
    (hget1 : s.grid.get? coln = some column) (hidx : idx < column.length)
    (hnone : column.getD idx none = none) :
    s.grid.set coln (column.set idx (some s.turn)) ≠ s.grid := by
  intro heq
  obtain ⟨hcl, _⟩ := List.get?_eq_some.mp hget1
  have h1 : (s.grid.set coln (column.set idx (some s.turn))).get? coln =
      some (column.set idx (some s.turn)) := List.get?_set_eq_of_lt _ hcl
  rw [heq, hget1] at h1
  have h2 : column = column.set idx (some s.turn) := Option.some.inj h1
  have h3 : (column.set idx (some s.turn)).get? idx = some (some s.turn) :=
    List.get?_set_eq_of_lt _ hidx
  rw [← h2] at h3
  rw [get?_eq_some_getD none hidx, hnone] at h3
  exact absurd (Option.some.inj h3) (by simp)

/-- C4: whenever `Game::simulate` returns normally on a `Place`, either the
command was rejected (the state, turn included, is unchanged) or a piece was
placed (the grid differs) and the turn was toggled — also when the placement
produced a winner, since the toggle runs unconditionally after the scan. -/
theorem place_turn_alternation (s : State) (coln rown : Nat) (g' : Game)
    (h : Game.simulate ⟨s⟩ (Command.Place coln rown) = some g') :
    (g' = ⟨s⟩ ∧ g'.state.turn = s.turn) ∨
    (g'.state.grid ≠ s.grid ∧
      g'.state.turn = (match s.turn with
        | Player.Naughts => Player.Crosses
        | Player.Crosses => Player.Naughts)) := by
  cases hw : s.winner.isSome with
  | true =>
    rw [simulate_place_of_winner s coln rown hw] at h
    rcases Option.some.inj h with rfl
    exact Or.inl ⟨rfl, rfl⟩
  | false =>
    cases hg : s.gravity with
    | false =>
      cases hget1 : s.grid.get? coln with
      | none =>
        rw [simulate_place_unfold, if_neg (by simp [hw]), if_neg (by simp [hg]),
          hget1] at h
        exact absurd h (by simp)
      | some column =>
        cases hget2 : column.get? rown with
        | none =>
          rw [simulate_place_unfold, if_neg (by simp [hw]), if_neg (by simp [hg]),
            hget1] at h
          dsimp only at h
          rw [hget2] at h
          exact absurd h (by simp)
        | some cell =>
          cases cell with
          | some p =>
            rw [simulate_place_nongrav_occupied s coln rown hw hg hget1 hget2] at h
            rcases Option.some.inj h with rfl
            exact Or.inl ⟨rfl, rfl⟩
          | none =>
            rw [simulate_place_nongrav_empty s coln rown hw hg hget1 hget2] at h
            obtain ⟨hgr, hturn, _, _, _⟩ := placeAndScore_some s coln rown _ g' h
            refine Or.inr ⟨?_, hturn⟩
            rw [hgr]
            obtain ⟨hrl, _⟩ := List.get?_eq_some.mp hget2
            exact set_grid_ne s coln rown hget1 hrl (getD_eq_of_get? none hget2)
    | true =>
      cases hget1 : s.grid.get? coln with
      | none =>
        rw [simulate_place_unfold, if_neg (by simp [hw]), if_pos hg, hget1] at h
        exact absurd h (by simp)
      | some column =>
        cases htop : column.get? 0 with
        | none =>
          rw [simulate_place_unfold, if_neg (by simp [hw]), if_pos hg, hget1] at h
          dsimp only at h
          rw [htop] at h
          exact absurd h (by simp)
        | some cell =>
          cases cell with
          | some p =>
            rw [simulate_place_grav_full s coln rown hw hg hget1 htop] at h
            rcases Option.some.inj h with rfl
            exact Or.inl ⟨rfl, rfl⟩
          | none =>
            obtain ⟨ii, _, hii, hnone, _, heq⟩ :=
              simulate_place_grav_open s coln rown hw hg hget1 htop
            rw [heq] at h
            obtain ⟨hgr, hturn, _, _, _⟩ := placeAndScore_some s coln ii _ g' h
            refine Or.inr ⟨?_, hturn⟩
            rw [hgr]
            exact set_grid_ne s coln ii hget1 hii hnone

/-- Witness for C4: Naughts plays the centre of an empty 3x3 board; the piece
is placed and the turn passes to Crosses. -/
theorem place_turn_alternation_witness :
    ((⟨{ winner := none
         turn := Player.Crosses
         grid := [[none, none, none],
                  [none, some Player.Naughts, none],
                  [none, none, none]]
         size := 3
         win := 3
         gravity := false }⟩ : Game) = ⟨State.new 3 3 false⟩ ∧
      (⟨{ winner := none
          turn := Player.Crosses
          grid := [[none, none, none],
                   [none, some Player.Naughts, none],
                   [none, none, none]]
          size := 3
          win := 3
          gravity := false }⟩ : Game).state.turn = (State.new 3 3 false).turn) ∨
    ((⟨{ winner := none
         turn := Player.Crosses
         grid := [[none, none, none],
                  [none, some Player.Naughts, none],
                  [none, none, none]]
         size := 3
         win := 3
         gravity := false }⟩ : Game).state.grid ≠ (State.new 3 3 false).grid ∧
      (⟨{ winner := none
          turn := Player.Crosses
          grid := [[none, none, none],
                   [none, some Player.Naughts, none],
                   [none, none, none]]
          size := 3
          win := 3
          gravity := false }⟩ : Game).state.turn =
        (match (State.new 3 3 false).turn with
          | Player.Naughts => Player.Crosses
          | Player.Crosses => Player.Naughts)) :=
  place_turn_alternation (State.new 3 3 false) 1 1 _ (by decide)

/-! ## Claim C2 -/

lemma wellFormed_set (s : State) (coln : Nat) (newcol : List Cell)
    (hshape : wellFormed s) (hlen : newcol.length = s.size) :
    wellFormed { s with grid := s.grid.set coln newcol } := by
  constructor
  · show (s.grid.set coln newcol).length = s.size
    rw [List.length_set]
    exact hshape.1
  · intro column hmem
    rcases List.mem_or_eq_of_mem_set hmem with hold | rfl
    · exact hshape.2 _ hold
    · exact hlen

lemma winScan_isSome_of_shape (s : State) (coln rown : Nat)
    (hshape : wellFormed s) (h1 : 1 ≤ s.size) (h31 : s.size ≤ 2 ^ 31)
    (hcol : coln < s.size) (hrow : rown < s.size) :
    ∃ r, winScan s coln rown dirPairs = some r := by
  have hc0 : (0 : Int) ≤ (coln : Int) := Int.natCast_nonneg coln
  have hcs : (coln : Int) < (s.size : Int) := by exact_mod_cast hcol
  have hr0 : (0 : Int) ≤ (rown : Int) := Int.natCast_nonneg rown
  have hrs : (rown : Int) < (s.size : Int) := by exact_mod_cast hrow
  have hdirs : ∀ p ∈ dirPairs,
      (p.1.1 = -1 ∨ p.1.1 = 0 ∨ p.1.1 = 1) ∧ (p.1.2 = -1 ∨ p.1.2 = 0 ∨ p.1.2 = 1) ∧
      ¬(p.1.1 = 0 ∧ p.1.2 = 0) := by decide
  have hbdir : ∀ p ∈ dirPairs,
      (p.2.1 = -1 ∨ p.2.1 = 0 ∨ p.2.1 = 1) ∧ (p.2.2 = -1 ∨ p.2.2 = 0 ∨ p.2.2 = 1) ∧
      ¬(p.2.1 = 0 ∧ p.2.2 = 0) := by decide
  apply winScan_isSome
  intro p hp
  obtain ⟨hx, hy, hxy⟩ := hdirs p hp
  obtain ⟨hxB, hyB, hxyB⟩ := hbdir p hp
  obtain ⟨fc, hfc, _⟩ := checkDirection_total s s.turn p.1.1 p.1.2 hshape h1 h31
    hx hy hxy hc0 hcs hr0 hrs
  obtain ⟨bc, hbc, _⟩ := checkDirection_total s s.turn p.2.1 p.2.2 hshape h1 h31
    hxB hyB hxyB hc0 hcs hr0 hrs
  exact ⟨by rw [hfc]; rfl, by rw [hbc]; rfl⟩

/-- C2: with gravity on and no winner yet, a `Place` into an in-bounds column
of a gravity-stacked (compact) board ignores the requested row; if the column
is completely full the state is unchanged, otherwise the piece lands in the
lowest empty cell of the column. -/
theorem gravity_place_lowest_empty (s : State) (coln rown : Nat)
    (hg : s.gravity = true) (hw : s.winner = none)
    (hshape : wellFormed s) (h1 : 1 ≤ s.size) (h31 : s.size ≤ 2 ^ 31)
    (hcol : coln < s.size)
    (hcompact : columnCompact (s.grid.getD coln [])) :
    (Game.simulate ⟨s⟩ (Command.Place coln rown) =
      Game.simulate ⟨s⟩ (Command.Place coln 0)) ∧
    (columnFull (s.grid.getD coln []) →
      Game.simulate ⟨s⟩ (Command.Place coln rown) = some ⟨s⟩) ∧
    (¬ columnFull (s.grid.getD coln []) →
      ∃ ii g', ii < s.size ∧ (s.grid.getD coln []).getD ii none = none ∧
        (∀ j, ii < j → j < s.size →
          ((s.grid.getD coln []).getD j none).isSome = true) ∧
        Game.simulate ⟨s⟩ (Command.Place coln rown) = some g' ∧
        g'.state.grid =
          s.grid.set coln ((s.grid.getD coln []).set ii (some s.turn))) := by
  have hwb : s.winner.isSome = false := by rw [hw]; rfl
  have hcl : coln < s.grid.length := by rw [hshape.1]; exact hcol
  have hget1 : s.grid.get? coln = some (s.grid.getD coln []) :=
    get?_eq_some_getD [] hcl
  have hmem : s.grid.getD coln [] ∈ s.grid := List.get?_mem hget1
  have hclen : (s.grid.getD coln []).length = s.size := hshape.2 _ hmem
  have hlen0 : 0 < (s.grid.getD coln []).length := by omega
  cases htop : (s.grid.getD coln []).get? 0 with
  | none =>
    rw [get?_eq_some_getD none hlen0] at htop
    exact absurd htop (by simp)
  | some c0 =>
    cases c0 with
    | some p =>
      have hfull : columnFull (s.grid.getD coln []) := by
        intro i hi
        rcases Nat.eq_zero_or_pos i with rfl | hpos
        · rw [getD_eq_of_get? none htop]; rfl
        · exact hcompact i hi 0 hpos (by rw [getD_eq_of_get? none htop]; rfl)
      refine ⟨?_, fun _ => simulate_place_grav_full s coln rown hwb hg hget1 htop,
        fun hnf => absurd hfull hnf⟩
      rw [simulate_place_grav_full s coln rown hwb hg hget1 htop,
        simulate_place_grav_full s coln 0 hwb hg hget1 htop]
    | none =>
      have hnotfull : ¬ columnFull (s.grid.getD coln []) := by
        intro hf
        have hx := hf 0 hlen0
        rw [getD_eq_of_get? none htop] at hx
        simp at hx
      obtain ⟨ii, hfind, hii, hnone, hafter, heq⟩ :=
        simulate_place_grav_open s coln rown hwb hg hget1 htop
      obtain ⟨ii0, hfind0, _, _, _, heq0⟩ :=
        simulate_place_grav_open s coln 0 hwb hg hget1 htop
      rw [hfind] at hfind0
      rcases Option.some.inj hfind0 with rfl
      have hshape' : wellFormed { s with grid := s.grid.set coln ((s.grid.getD coln []).set ii (some s.turn)) } :=
        wellFormed_set s coln _ hshape (by rw [List.length_set]; exact hclen)
      obtain ⟨r, hscan⟩ := winScan_isSome_of_shape
        { s with grid := s.grid.set coln ((s.grid.getD coln []).set ii (some s.turn)) }
        coln ii hshape' h1 h31 hcol (show ii < s.size by omega)
      have hps : placeAndScore s coln ii
          (s.grid.set coln ((s.grid.getD coln []).set ii (some s.turn))) =
          some ⟨{ s with
            grid := s.grid.set coln ((s.grid.getD coln []).set ii (some s.turn))
            winner := r
            turn := match s.turn with
              | Player.Naughts => Player.Crosses
              | Player.Crosses => Player.Naughts }⟩ := by
        unfold placeAndScore
        dsimp only
        rw [hscan]
      refine ⟨?_, fun hf => absurd hf hnotfull, fun _ => ?_⟩
      · rw [heq, heq0]
      · refine ⟨ii, _, by omega, hnone, ?_, by rw [heq]; exact hps, rfl⟩
        intro j hj hj'
        exact hafter j hj (by omega)

/-- Witness for C2: gravity game on an empty 2x2 board, `Place(0, 1)`. -/
theorem gravity_place_lowest_empty_witness :
    (Game.simulate ⟨State.new 2 2 true⟩ (Command.Place 0 1) =
      Game.simulate ⟨State.new 2 2 true⟩ (Command.Place 0 0)) ∧
    (columnFull ((State.new 2 2 true).grid.getD 0 []) →
      Game.simulate ⟨State.new 2 2 true⟩ (Command.Place 0 1) =
        some ⟨State.new 2 2 true⟩) ∧
    (¬ columnFull ((State.new 2 2 true).grid.getD 0 []) →
      ∃ ii g', ii < (State.new 2 2 true).size ∧
        ((State.new 2 2 true).grid.getD 0 []).getD ii none = none ∧
        (∀ j, ii < j → j < (State.new 2 2 true).size →
          (((State.new 2 2 true).grid.getD 0 []).getD j none).isSome = true) ∧
        Game.simulate ⟨State.new 2 2 true⟩ (Command.Place 0 1) = some g' ∧
        g'.state.grid = (State.new 2 2 true).grid.set 0
          (((State.new 2 2 true).grid.getD 0 []).set ii
            (some (State.new 2 2 true).turn))) :=
  gravity_place_lowest_empty (State.new 2 2 true) 0 1 rfl rfl (by decide)
    (by decide) (by decide) (by decide) (by decide)

/-! ## Claim C9 -/

lemma wellFormed_new (n w : Nat) (gr : Bool) : wellFormed (State.new n w gr) := by
  constructor
  · simp [State.new]
  · intro column hmem
    have hcol : column = List.replicate n (none : Cell) := by
      have hx : column ∈ List.replicate n (List.replicate n (none : Cell)) := hmem
      exact List.eq_of_mem_replicate hx
    rw [hcol]
    simp [State.new]

lemma getD_set_ne_idx {α : Type} (a : α) (l : List α) {i j : Nat} (hne : i ≠ j)
    (d : α) : (l.set i a).getD j d = l.getD j d := by
  rw [getD_get?_eq, List.get?_set_ne a l hne, ← getD_get?_eq]

/-- Setting an empty cell preserves every existing mark. -/
lemma getCell_set_preserve (s : State) (coln idx : Nat) {column : List Cell}
    (hget1 : s.grid.get? coln = some column) (hnone : column.getD idx none = none) :
    ∀ c r (p : Player), getCell s c r = some p →
      getCell { s with grid := s.grid.set coln (column.set idx (some s.turn)) } c r =
        some p := by
  intro c r p hold
  obtain ⟨hcl, _⟩ := List.get?_eq_some.mp hget1
  unfold getCell at hold ⊢
  dsimp only at hold ⊢
  by_cases hc : c = coln
  · subst hc
    rw [getD_eq_of_get? [] (List.get?_set_eq_of_lt _ hcl)]
    have hcol_old : s.grid.getD c [] = column := getD_eq_of_get? [] hget1
    rw [hcol_old] at hold
    by_cases hr : r = idx
    · subst hr
      rw [hnone] at hold
      exact absurd hold (by simp)
    · rw [getD_set_ne_idx _ _ (fun hh => hr hh.symm)]
      exact hold
  · rw [getD_set_ne_idx _ _ (fun hh => hc hh.symm)]
    exact hold

lemma filter_isSome_length_set (column : List Cell) (idx : Nat) (v : Player) :
    ((column.set idx (some v)).filter (fun c => c.isSome)).length ≤
      (column.filter (fun c => c.isSome)).length + 1 := by
  induction column generalizing idx with
  | nil => simp
  | cons a t ih =>
    cases idx with
    | zero =>
      cases a <;> simp [List.filter_cons]
    | succ m =>
      have := ih m
      cases a <;> simp [List.filter_cons] <;> omega

lemma sum_filter_set_le : ∀ (grid : Grid) (coln : Nat) (newcol : List Cell),
    (newcol.filter (fun c => c.isSome)).length ≤
      ((grid.getD coln []).filter (fun c => c.isSome)).length + 1 →
    ((grid.set coln newcol).map
      (fun column => (column.filter (fun c => c.isSome)).length)).sum ≤
      (grid.map (fun column => (column.filter (fun c => c.isSome)).length)).sum + 1 := by
  intro grid
  induction grid with
  | nil => intro coln newcol _; simp
  | cons hd tl ih =>
    intro coln newcol hle
    cases coln with
    | zero =>
      simp only [List.set, List.map_cons, List.sum_cons]
      have : (hd :: tl).getD 0 [] = hd := rfl
      rw [this] at hle
      omega
    | succ m =>
      simp only [List.set, List.map_cons, List.sum_cons]
      have hrec := ih m newcol (by exact hle)
      omega

lemma markCount_set_le (s : State) (coln idx : Nat) {column : List Cell}
    (hget1 : s.grid.get? coln = some column) :
    markCount { s with grid := s.grid.set coln (column.set idx (some s.turn)) } ≤
      markCount s + 1 := by
  unfold markCount
  dsimp only
  apply sum_filter_set_le
  rw [getD_eq_of_get? [] hget1]
  exact filter_isSome_length_set column idx s.turn

/-- C9: every command preserves `size`, `win`, `gravity` and the grid shape;
a `Place` never removes or overwrites an existing mark and adds at most one. -/
theorem simulate_frame_conditions (g g' : Game) (cmd : Command)
    (hshape : wellFormed g.state) (h : Game.simulate g cmd = some g') :
    g'.state.size = g.state.size ∧ g'.state.win = g.state.win ∧
    g'.state.gravity = g.state.gravity ∧ wellFormed g'.state ∧
    (∀ coln rown, cmd = Command.Place coln rown →
      (∀ c r (p : Player), getCell g.state c r = some p →
        getCell g'.state c r = some p) ∧
      markCount g'.state ≤ markCount g.state + 1) := by
  obtain ⟨s⟩ := g
  cases cmd with
  | Restart =>
    rcases Option.some.inj h with rfl
    exact ⟨rfl, rfl, rfl, wellFormed_new s.size s.win s.gravity,
      fun coln rown hcmd => Command.noConfusion hcmd⟩
  | StartGame =>
    rcases Option.some.inj h with rfl
    exact ⟨rfl, rfl, rfl, hshape, fun coln rown hcmd => Command.noConfusion hcmd⟩
  | SetWinCondition n =>
    rcases Option.some.inj h with rfl
    exact ⟨rfl, rfl, rfl, hshape, fun coln rown hcmd => Command.noConfusion hcmd⟩
  | SetGridSize n =>
    rcases Option.some.inj h with rfl
    exact ⟨rfl, rfl, rfl, hshape, fun coln rown hcmd => Command.noConfusion hcmd⟩
  | SetGravity b =>
    rcases Option.some.inj h with rfl
    exact ⟨rfl, rfl, rfl, hshape, fun coln rown hcmd => Command.noConfusion hcmd⟩
  | Place coln rown =>
    have hsame : g' = (⟨s⟩ : Game) →
        g'.state.size = s.size ∧ g'.state.win = s.win ∧
        g'.state.gravity = s.gravity ∧ wellFormed g'.state ∧
        (∀ c r (p : Player), getCell s c r = some p →
          getCell g'.state c r = some p) ∧
        markCount g'.state ≤ markCount s + 1 := by
      rintro rfl
      exact ⟨rfl, rfl, rfl, hshape, fun c r p hp => hp, Nat.le_succ _⟩
    have hplaced : ∀ (idx : Nat) (column : List Cell),
        s.grid.get? coln = some column → column.getD idx none = none →
        Game.simulate ⟨s⟩ (Command.Place coln rown) =
          placeAndScore s coln idx (s.grid.set coln (column.set idx (some s.turn))) →
        g'.state.size = s.size ∧ g'.state.win = s.win ∧
        g'.state.gravity = s.gravity ∧ wellFormed g'.state ∧
        (∀ c r (p : Player), getCell s c r = some p →
          getCell g'.state c r = some p) ∧
        markCount g'.state ≤ markCount s + 1 := by
      intro idx column hget1 hnone heq
      rw [heq] at h
      obtain ⟨hgr, _, hsz, hwn, hgv⟩ := placeAndScore_some s coln idx _ g' h
      have hmem : column ∈ s.grid := List.get?_mem hget1
      have hclen : column.length = s.size := hshape.2 _ hmem
      refine ⟨hsz, hwn, hgv, ?_, ?_, ?_⟩
      · constructor
        · rw [hgr, hsz, List.length_set]
          exact hshape.1
        · intro col hm
          rw [hsz]
          rw [hgr] at hm
          rcases List.mem_or_eq_of_mem_set hm with hold | rfl
          · exact hshape.2 _ hold
          · rw [List.length_set]
            exact hclen
      · intro c r p hp
        have := getCell_set_preserve s coln idx hget1 hnone c r p hp
        unfold getCell at this ⊢
        rw [hgr]
        exact this
      · have := markCount_set_le s coln idx hget1
        unfold markCount at this ⊢
        rw [hgr]
        exact this
    have hmain : g'.state.size = s.size ∧ g'.state.win = s.win ∧
        g'.state.gravity = s.gravity ∧ wellFormed g'.state ∧
        (∀ c r (p : Player), getCell s c r = some p →
          getCell g'.state c r = some p) ∧
        markCount g'.state ≤ markCount s + 1 := by
      cases hw : s.winner.isSome with
      | true =>
        rw [simulate_place_of_winner s coln rown hw] at h
        exact hsame (Option.some.inj h).symm
      | false =>
        cases hg : s.gravity with
        | false =>
          cases hget1 : s.grid.get? coln with
          | none =>
            rw [simulate_place_unfold, if_neg (by simp [hw]),
              if_neg (by simp [hg]), hget1] at h
            exact absurd h (by simp)
          | some column =>
            cases hget2 : column.get? rown with
            | none =>
              rw [simulate_place_unfold, if_neg (by simp [hw]),
                if_neg (by simp [hg]), hget1] at h
              dsimp only at h
              rw [hget2] at h
              exact absurd h (by simp)
            | some cell =>
              cases cell with
              | some p =>
                rw [simulate_place_nongrav_occupied s coln rown hw hg hget1 hget2] at h
                obtain ⟨h1', h2', h3', h4', h5', h6'⟩ := hsame (Option.some.inj h).symm
                exact ⟨h1', h2', h3'.trans hg, h4', h5', h6'⟩
              | none =>
                obtain ⟨h1', h2', h3', h4', h5', h6'⟩ :=
                  hplaced rown column hget1 (getD_eq_of_get? none hget2)
                    (simulate_place_nongrav_empty s coln rown hw hg hget1 hget2)
                exact ⟨h1', h2', h3'.trans hg, h4', h5', h6'⟩
        | true =>
          cases hget1 : s.grid.get? coln with
          | none =>
            rw [simulate_place_unfold, if_neg (by simp [hw]), if_pos hg, hget1] at h
            exact absurd h (by simp)
          | some column =>
            cases htop : column.get? 0 with
            | none =>
              rw [simulate_place_unfold, if_neg (by simp [hw]), if_pos hg, hget1] at h
              dsimp only at h
              rw [htop] at h
              exact absurd h (by simp)
            | some cell =>
              cases cell with
              | some p =>
                rw [simulate_place_grav_full s coln rown hw hg hget1 htop] at h
                obtain ⟨h1', h2', h3', h4', h5', h6'⟩ := hsame (Option.some.inj h).symm
                exact ⟨h1', h2', h3'.trans hg, h4', h5', h6'⟩
              | none =>
                obtain ⟨ii, _, _, hnone, _, heq⟩ :=
                  simulate_place_grav_open s coln rown hw hg hget1 htop
                obtain ⟨h1', h2', h3', h4', h5', h6'⟩ := hplaced ii column hget1 hnone heq
                exact ⟨h1', h2', h3'.trans hg, h4', h5', h6'⟩
    exact ⟨hmain.1, hmain.2.1, hmain.2.2.1, hmain.2.2.2.1,
      fun coln' rown' hcmd => by
        rcases Command.Place.inj hcmd with ⟨rfl, rfl⟩
        exact ⟨hmain.2.2.2.2.1, hmain.2.2.2.2.2⟩⟩

/-- Witness for C9: Restart on `stColWin` preserves the frame fields. -/
theorem simulate_frame_conditions_witness :
    (⟨State.new 3 3 false⟩ : Game).state.size = (⟨stColWin⟩ : Game).state.size ∧
    (⟨State.new 3 3 false⟩ : Game).state.win = (⟨stColWin⟩ : Game).state.win ∧
    (⟨State.new 3 3 false⟩ : Game).state.gravity = (⟨stColWin⟩ : Game).state.gravity ∧
    wellFormed (⟨State.new 3 3 false⟩ : Game).state ∧
    (∀ coln rown, Command.Restart = Command.Place coln rown →
      (∀ c r (p : Player), getCell (⟨stColWin⟩ : Game).state c r = some p →
        getCell (⟨State.new 3 3 false⟩ : Game).state c r = some p) ∧
      markCount (⟨State.new 3 3 false⟩ : Game).state ≤
        markCount (⟨stColWin⟩ : Game).state + 1) :=
  simulate_frame_conditions ⟨stColWin⟩ ⟨State.new 3 3 false⟩ Command.Restart
    (by decide) (by decide)

/-! ## Claim C6 -/

lemma lobby_game_eta (l : Lobby) {game : Game} (hgame : l.game = some game) :
    { l with game := some game } = l := by
  obtain ⟨pl, sp, st, gm⟩ := l
  dsimp only at hgame
  rw [hgame]

/-- C6: `Lobby::apply` is receive-command, mutate-state, broadcast-state.
A command from an unregistered client, or from a registered player out of
turn, leaves the lobby (game state included) unchanged and sends nothing;
a command from the player whose turn it is is simulated and the resulting
state is sent to every client in the spectators list. -/
theorem apply_receive_mutate_broadcast (l : Lobby) (msg : ClientMessage) :
    (List.lookup msg.id l.players = none → l.apply msg = some (l, [])) ∧
    (∀ p game, List.lookup msg.id l.players = some p → l.game = some game →
      p ≠ game.state.turn → l.apply msg = some (l, [])) ∧
    (∀ p game game', List.lookup msg.id l.players = some p → l.game = some game →
      p = game.state.turn → game.simulate msg.cmd = some game' →
      l.apply msg = some ({ l with game := some game' },
        l.spectators.map (fun c => (c.id, game'.state)))) := by
  refine ⟨?_, ?_, ?_⟩
  · intro hnone
    unfold Lobby.apply
    rw [hnone]
  · intro p game hp hgame hne
    unfold Lobby.apply
    rw [hp]
    dsimp only
    rw [hgame]
    dsimp only
    rw [if_neg hne, lobby_game_eta l hgame]
  · intro p game game' hp hgame hteq hsim
    unfold Lobby.apply
    rw [hp]
    dsimp only
    rw [hgame]
    dsimp only
    rw [if_pos hteq, hsim]

/-- A lobby with one registered player (Naughts), two connected clients and a
running 2x2 game. -/
def lob6 : Lobby :=
  { players := [(1, Player.Naughts)]
    spectators := [⟨1⟩, ⟨2⟩]
    settings := GameSettings.defaultSettings
    game := some ⟨State.new 2 2 false⟩ }

/-- Witness for C6: the registered player, on turn, places a piece and the
new state is broadcast to both connected clients. -/
theorem apply_receive_mutate_broadcast_witness :
    lob6.apply ⟨1, Command.Place 0 0⟩ =
      some ({ lob6 with game := some ⟨{ winner := none
                                        turn := Player.Crosses
                                        grid := [[some Player.Naughts, none],
                                                 [none, none]]
                                        size := 2
                                        win := 2
                                        gravity := false }⟩ },
        lob6.spectators.map (fun c => (c.id,
          ({ winner := none
             turn := Player.Crosses
             grid := [[some Player.Naughts, none], [none, none]]
             size := 2
             win := 2
             gravity := false } : State)))) :=
  (apply_receive_mutate_broadcast lob6 ⟨1, Command.Place 0 0⟩).2.2
    Player.Naughts ⟨State.new 2 2 false⟩ _ rfl rfl rfl (by decide)

/-! ## Claim C7 -/

lemma simulate_lobby_cmd (g : Game) (cmd : Command)
    (h : cmd = Command.StartGame ∨ (∃ n, cmd = Command.SetWinCondition n) ∨
      (∃ n, cmd = Command.SetGridSize n) ∨ (∃ b, cmd = Command.SetGravity b)) :
    g.simulate cmd = some g := by
  rcases h with rfl | ⟨n, rfl⟩ | ⟨n, rfl⟩ | ⟨b, rfl⟩ <;> rfl

/-- C7: with no game running, a registered client's `Set*` commands each
update exactly their own setting; `StartGame` creates a game exactly when all
three settings are set, and the created game starts with an empty
`grid_size` x `grid_size` grid, no winner and Naughts to move; once a game is
running, the lobby commands leave the settings (and the game) unchanged. -/
theorem lobby_settings_negotiation (l : Lobby) (id : Uuid) (p : Player)
    (hreg : List.lookup id l.players = some p) :
    (l.game = none →
      (∀ wc, l.apply ⟨id, Command.SetWinCondition wc⟩ =
        some ({ l with settings := { l.settings with win_condition := some wc } }, [])) ∧
      (∀ gs, l.apply ⟨id, Command.SetGridSize gs⟩ =
        some ({ l with settings := { l.settings with grid_size := some gs } }, [])) ∧
      (∀ gr, l.apply ⟨id, Command.SetGravity gr⟩ =
        some ({ l with settings := { l.settings with gravity := some gr } }, []))) ∧
    (l.game = none → ∀ gs wc gr,
      l.settings = ⟨some gs, some wc, some gr⟩ →
      l.apply ⟨id, Command.StartGame⟩ =
        some ({ l with game := some ⟨State.new gs wc gr⟩ }, []) ∧
      (State.new gs wc gr).grid = List.replicate gs (List.replicate gs none) ∧
      (State.new gs wc gr).winner = none ∧
      (State.new gs wc gr).turn = Player.Naughts) ∧
    (l.game = none → l.settings.is_valid = false →
      l.apply ⟨id, Command.StartGame⟩ = some (l, [])) ∧
    (∀ game cmd, l.game = some game →
      (cmd = Command.StartGame ∨ (∃ n, cmd = Command.SetWinCondition n) ∨
       (∃ n, cmd = Command.SetGridSize n) ∨ (∃ b, cmd = Command.SetGravity b)) →
      ∃ lob' msgs, l.apply ⟨id, cmd⟩ = some (lob', msgs) ∧
        lob'.settings = l.settings ∧ lob'.game = some game) := by
  refine ⟨?_, ?_, ?_, ?_⟩
  · intro hnog
    refine ⟨fun wc => ?_, fun gs => ?_, fun gr => ?_⟩ <;>
      · unfold Lobby.apply
        rw [hreg]
        dsimp only
        rw [hnog]
  · intro hnog gs wc gr hset
    refine ⟨?_, rfl, rfl, rfl⟩
    unfold Lobby.apply
    rw [hreg]
    dsimp only
    rw [hnog]
    dsimp only
    rw [hset]
    rfl
  · intro hnog hinv
    unfold Lobby.apply
    rw [hreg]
    dsimp only
    rw [hnog]
    dsimp only
    rw [if_neg (by simp [hinv])]
  · intro game cmd hgame hcmd
    unfold Lobby.apply
    rw [hreg]
    dsimp only
    rw [hgame]
    dsimp only
    by_cases ht : p = game.state.turn
    · rw [if_pos ht, simulate_lobby_cmd game cmd hcmd]
      exact ⟨_, _, rfl, rfl, rfl⟩
    · rw [if_neg ht]
      exact ⟨_, _, rfl, rfl, rfl⟩

/-- A lobby with one registered player, all three settings chosen, and no
game yet. -/
def lob7 : Lobby :=
  { players := [(1, Player.Crosses)]
    spectators := [⟨1⟩]
    settings := { grid_size := some 3, win_condition := some 3, gravity := some false }
    game := none }

/-- Witness for C7: `StartGame` on `lob7` creates the 3x3 game with an empty
grid, no winner and Naughts to move. -/
theorem lobby_settings_negotiation_witness :
    lob7.apply ⟨1, Command.StartGame⟩ =
      some ({ lob7 with game := some ⟨State.new 3 3 false⟩ }, []) ∧
    (State.new 3 3 false).grid = List.replicate 3 (List.replicate 3 none) ∧
    (State.new 3 3 false).winner = none ∧
    (State.new 3 3 false).turn = Player.Naughts :=
  (lobby_settings_negotiation lob7 1 Player.Crosses rfl).2.1 rfl 3 3 false rfl

/-! ## Claim C10 -/

lemma lookup_hashInsert (m : List (Uuid × Player)) (k : Uuid) (v : Player) :
    List.lookup k (hashInsert m k v) = some v := by
  unfold hashInsert
  by_cases hmem : (List.lookup k m).isSome = true
  · rw [if_pos hmem]
    induction m with
    | nil => simp at hmem
    | cons e t ih =>
      obtain ⟨a, b⟩ := e
      by_cases hk : a = k
      · subst hk
        simp [List.lookup_cons]
      · have hstep : List.lookup k ((a, b) :: t) = List.lookup k t := by
          simp [List.lookup_cons, beq_false_of_ne (fun hh => hk hh.symm)]
        rw [hstep] at hmem
        have := ih hmem
        simp only [List.map_cons]
        rw [if_neg hk]
        rw [List.lookup_cons]
        rw [beq_false_of_ne (fun hh => hk hh.symm)]
        exact this
  · rw [if_neg hmem]
    induction m with
    | nil => simp [List.lookup_cons]
    | cons e t ih =>
      obtain ⟨a, b⟩ := e
      have hak : ¬ a = k := by
        intro hh
        subst hh
        rw [List.lookup_cons] at hmem
        simp at hmem
      have hmem' : ¬ (List.lookup k t).isSome = true := by
        intro hh
        apply hmem
        rw [List.lookup_cons, beq_false_of_ne (fun h2 => hak h2.symm)]
        exact hh
      simp only [List.cons_append]
      rw [List.lookup_cons, beq_false_of_ne (fun h2 => hak h2.symm)]
      exact ih hmem'

lemma length_hashInsert (m : List (Uuid × Player)) (k : Uuid) (v : Player) :
    (hashInsert m k v).length =
      if (List.lookup k m).isSome then m.length else m.length + 1 := by
  unfold hashInsert
  by_cases hmem : (List.lookup k m).isSome = true
  · rw [if_pos hmem, if_pos hmem, List.length_map]
  · rw [if_neg hmem, if_neg hmem, List.length_append]
    rfl

/-- C10: connection handling gives the first connecting client the Crosses
mark, the second the Naughts mark, adds every later connection as a
spectator only, keeps the players map at two entries at most, and appends
every connection to the spectators list. -/
theorem connection_made_roles (l : Lobby) (id : Uuid) :
    ((connection_made l id).1.spectators = l.spectators ++ [⟨id⟩]) ∧
    (l.players.length = 0 →
      (connection_made l id).1.players = [(id, Player.Crosses)]) ∧
    (l.players.length = 1 →
      List.lookup id (connection_made l id).1.players = some Player.Naughts ∧
      (connection_made l id).1.players.length ≤ 2) ∧
    (2 ≤ l.players.length → (connection_made l id).1.players = l.players) ∧
    (l.players.length ≤ 2 → (connection_made l id).1.players.length ≤ 2) := by
  unfold connection_made
  dsimp only
  refine ⟨rfl, ?_, ?_, ?_, ?_⟩
  · intro h0
    have hnil : l.players = [] := List.length_eq_zero.mp h0
    rw [if_pos (by omega)]
    rw [hnil]
    rfl
  · intro h1
    rw [if_neg (by omega), if_pos (by omega)]
    refine ⟨lookup_hashInsert l.players id Player.Naughts, ?_⟩
    rw [length_hashInsert]
    split <;> omega
  · intro h2
    rw [if_neg (by omega), if_neg (by omega)]
  · intro hle
    by_cases c1 : l.players.length < 1
    · rw [if_pos c1, length_hashInsert]
      split <;> omega
    · by_cases c2 : l.players.length < 2
      · rw [if_neg c1, if_pos c2, length_hashInsert]
        split <;> omega
      · rw [if_neg c1, if_neg c2]
        omega

/-- Witness for C10: a second client connecting to a lobby with one player is
registered as Naughts, and the players map stays at two entries at most. -/
theorem connection_made_roles_witness :
    List.lookup 7 (connection_made lob6 7).1.players = some Player.Naughts ∧
    (connection_made lob6 7).1.players.length ≤ 2 :=
  (connection_made_roles lob6 7).2.2.1 rfl

/-! ## The compact-columns hypothesis of C2 is an invariant of gravity games -/

lemma columnCompact_new (n w : Nat) (gr : Bool) :
    ∀ coln, columnCompact ((State.new n w gr).grid.getD coln []) := by
  intro coln j hj i hi hocc
  exfalso
  have hcell : ∀ c k : Nat, ((State.new n w gr).grid.getD c []).getD k none = none := by
    intro c k
    show ((List.replicate n (List.replicate n (none : Cell))).getD c []).getD k none = none
    rcases lt_or_ge c n with hc | hc
    · have hcol : (List.replicate n (List.replicate n (none : Cell))).getD c [] =
          List.replicate n (none : Cell) := by
        rw [List.getD_eq_getElem _ _ (by simpa using hc)]
        simp
      rw [hcol]
      rcases lt_or_ge k n with hk | hk
      · rw [List.getD_eq_getElem _ _ (by simpa using hk)]
        simp
      · exact getD_eq_default_of_le _ _ (by simpa using hk)
    · rw [getD_eq_default_of_le (List.replicate n (List.replicate n (none : Cell))) []
        (by simpa using hc)]
      rfl
  rw [hcell coln i] at hocc
  simp at hocc

/-- A placement at the lowest empty cell of a compact column keeps every
column of the grid compact, so `columnCompact` holds in every state reachable
by `Game::simulate` in a gravity game. -/
lemma columnCompact_preserved (s : State) (cmd : Command) (g' : Game)
    (hg : s.gravity = true) (h : Game.simulate ⟨s⟩ cmd = some g')
    (hcompact : ∀ coln, columnCompact (s.grid.getD coln [])) :
    ∀ coln, columnCompact (g'.state.grid.getD coln []) := by
  cases cmd with
  | Restart =>
    rcases Option.some.inj h with rfl
    exact columnCompact_new s.size s.win s.gravity
  | StartGame => rcases Option.some.inj h with rfl; exact hcompact
  | SetWinCondition n => rcases Option.some.inj h with rfl; exact hcompact
  | SetGridSize n => rcases Option.some.inj h with rfl; exact hcompact
  | SetGravity b => rcases Option.some.inj h with rfl; exact hcompact
  | Place coln rown =>
    cases hw : s.winner.isSome with
    | true =>
      rw [simulate_place_of_winner s coln rown hw] at h
      rcases Option.some.inj h with rfl
      exact hcompact
    | false =>
      cases hget1 : s.grid.get? coln with
      | none =>
        rw [simulate_place_unfold, if_neg (by simp [hw]), if_pos hg, hget1] at h
        exact absurd h (by simp)
      | some column =>
        cases htop : column.get? 0 with
        | none =>
          rw [simulate_place_unfold, if_neg (by simp [hw]), if_pos hg, hget1] at h
          dsimp only at h
          rw [htop] at h
          exact absurd h (by simp)
        | some cell =>
          cases cell with
          | some p =>
            rw [simulate_place_grav_full s coln rown hw hg hget1 htop] at h
            rcases Option.some.inj h with rfl
            exact hcompact
          | none =>
            obtain ⟨ii, _, hii, hnone, hafter, heq⟩ :=
              simulate_place_grav_open s coln rown hw hg hget1 htop
            rw [heq] at h
            obtain ⟨hgr, _, _, _, _⟩ := placeAndScore_some s coln ii _ g' h
            intro coln'
            rw [hgr]
            obtain ⟨hcl, _⟩ := List.get?_eq_some.mp hget1
            by_cases hc : coln' = coln
            · subst hc
              have hcol : s.grid.getD coln' [] = column := getD_eq_of_get? [] hget1
              have hcc : columnCompact column := by
                have hx := hcompact coln'
                rwa [hcol] at hx
              rw [getD_eq_of_get? [] (List.get?_set_eq_of_lt _ hcl)]
              intro j hj i hi hocc
              rw [List.length_set] at hj
              by_cases hjii : j = ii
              · exfalso
                have hiii : ¬ i = ii := by omega
                rw [getD_set_ne_idx _ _ (fun hh => hiii hh.symm)] at hocc
                have hup := hcc j hj i hi hocc
                rw [hjii, hnone] at hup
                simp at hup
              · rw [getD_set_ne_idx _ _ (fun hh => hjii hh.symm)]
                by_cases hiii : i = ii
                · exact hafter j (by omega) hj
                · rw [getD_set_ne_idx _ _ (fun hh => hiii hh.symm)] at hocc
                  exact hcc j hj i hi hocc
            · rw [getD_set_ne_idx _ _ (fun hh => hc hh.symm)]
              exact hcompact coln'

end TickTackToe
